import Mathlib

/-! Pico-i2c1602LCD: a shallow embedding of `characterLCD.hpp`.

The driver class `DisplayControl` talks to an HD44780 character display through a
4-bit I2C backpack.  This file embeds the driver in Lean:

* `uint8_t` and `char` values are natural numbers; every narrowing conversion the
  source performs is an explicit `% 256`;
* the member variables are the fields of the structure `DisplayControl`;
* the outside world (I2C bus, sleeps, serial console) is a chronological list of
  `Event`s; the value returned by the `n`-th call of `i2c_write_blocking` is given by
  a `Transport`, an arbitrary function of `n`;
* reads and writes outside an array or string are undefined behaviour in C++ and are
  the fault `Fault.outOfBounds`; the only loop of the source whose counter can wrap
  around (the scroll loop of `print`) runs on fuel, and `Fault.outOfFuel` is returned
  when the fuel is used up; `printProgress` gives the world such a run has reached by
  then, so that a run that never returns is described pass by pass.
-/

namespace LCD

/-! ## Enumerations of the source -/

/-- The `Commands::Clear_Display` enumerator. -/
def Commands.Clear_Display : Nat := 0x01
/-- The `Commands::Return_Home` enumerator. -/
def Commands.Return_Home : Nat := 0x02
/-- The `Commands::Set_Entry_Mode` enumerator. -/
def Commands.Set_Entry_Mode : Nat := 0x04
/-- The `Commands::Set_Display_Control` enumerator. -/
def Commands.Set_Display_Control : Nat := 0x08
/-- The `Commands::Cursor_Shift` enumerator. -/
def Commands.Cursor_Shift : Nat := 0x10
/-- The `Commands::Set_Function` enumerator. -/
def Commands.Set_Function : Nat := 0x20
/-- The `Commands::Set_DDRAM_Address` enumerator. -/
def Commands.Set_DDRAM_Address : Nat := 0x80

/-- The `DisplayEntryMode::Entry_Left` enumerator. -/
def DisplayEntryMode.Entry_Left : Nat := 0x02
/-- The `DisplayEntryMode::Entry_Shift_Decrement` enumerator. -/
def DisplayEntryMode.Entry_Shift_Decrement : Nat := 0x00

/-- The `PowerState::Display_On` enumerator. -/
def PowerState.Display_On : Nat := 0x04
/-- The `PowerState::Display_Off` enumerator. -/
def PowerState.Display_Off : Nat := 0x00
/-- The `PowerState::Cursor_On` enumerator. -/
def PowerState.Cursor_On : Nat := 0x02
/-- The `PowerState::Cursor_Off` enumerator. -/
def PowerState.Cursor_Off : Nat := 0x00
/-- The `PowerState::Blink_On` enumerator. -/
def PowerState.Blink_On : Nat := 0x01
/-- The `PowerState::Blink_Off` enumerator. -/
def PowerState.Blink_Off : Nat := 0x00

/-- The `DisplayShift::Display_Shift_Right` enumerator. -/
def DisplayShift.Display_Shift_Right : Nat := 0x1C
/-- The `DisplayShift::Display_Shift_Left` enumerator. -/
def DisplayShift.Display_Shift_Left : Nat := 0x18

/-- The `Function::Four_Bit_Mode` enumerator. -/
def Function.Four_Bit_Mode : Nat := 0x00
/-- The `Function::Two_Line_Mode` enumerator. -/
def Function.Two_Line_Mode : Nat := 0x08
/-- The `Function::FiveXEight_Grid` enumerator. -/
def Function.FiveXEight_Grid : Nat := 0x00

set_option linter.dupNamespace false in
/-- The `Backlight::Backlight` enumerator. -/
def Backlight.Backlight : Nat := 0x08
/-- The `Backlight::Backlight_off` enumerator. -/
def Backlight.Backlight_off : Nat := 0x00

/-- The `Flags::Set_Enable_High` enumerator. -/
def Flags.Set_Enable_High : Nat := 0x04
/-- The `Flags::Set_Enable_Low` enumerator. -/
def Flags.Set_Enable_Low : Nat := 0x00
/-- The `Flags::Read` enumerator. -/
def Flags.Read : Nat := 0x02
/-- The `Flags::Write` enumerator. -/
def Flags.Write : Nat := 0x00
/-- The `Flags::Register_Select` enumerator. -/
def Flags.Register_Select : Nat := 0x01
/-- The `Flags::Command` enumerator. -/
def Flags.Command : Nat := 0x00
/-- The `Flags::Character` enumerator. -/
def Flags.Character : Nat := 0x01

/-! ## The driver object and the outside world -/

/-- The mutable and configuration members of `class DisplayControl`, with the default
member initialisers of the source as default values (`writeBuffer[40] = {}` is forty
zero bytes). -/
structure DisplayControl where
  LEDgpio : Nat := 25
  TxBytesSent : Int := 0
  currRowWrite : Nat := 0
  currColumnWrite : Nat := 0
  writeBuffer : List Nat := List.replicate 40 0
  SDA : Nat := 4
  SCL : Nat := 5
  hardware_address : Nat := 0x27
  rows : Nat := 2
  columns : Nat := 16
  deriving DecidableEq, Repr

/-- The constant member `setEnableLow`: `Flags::Set_Enable_Low | Backlight::Backlight`. -/
def setEnableLow : Nat := (Flags.Set_Enable_Low ||| Backlight.Backlight) % 256

/-- The constant member `displayMemoryIndex[4]`. -/
def displayMemoryIndex : List Nat := [0x00, 0x40, 0x14, 0x54]

/-- The capacity of `char writeBuffer[40]`. -/
def writeBufferCapacity : Nat := 40

/-- One observable action of the driver on its environment. -/
inductive Event where
  /-- A call `i2c_write_blocking(I2C, addr, src, len, nostop)`, `src` holding the `len` bytes. -/
  | i2c_write_blocking (addr : Nat) (src : List Nat) (nostop : Bool)
  /-- A call `sleep_us(us)`. -/
  | sleep_us (us : Nat)
  /-- A call `sleep_ms(ms)`. -/
  | sleep_ms (ms : Nat)
  /-- A call `printf(fmt, args...)` on the serial console. -/
  | printf (fmt : String) (args : List Nat)
  /-- A call `gpio_put(pin, value)`. -/
  | gpio_put (pin : Nat) (value : Nat)
  /-- A call `i2c_init(I2C, baudrate)`. -/
  | i2c_init (baudrate : Nat)
  /-- A call `gpio_set_function(pin, fn)`. -/
  | gpio_set_function (pin : Nat) (fn : Nat)
  /-- A call `gpio_pull_up(pin)`. -/
  | gpio_pull_up (pin : Nat)
  /-- A call `gpio_init(pin)`. -/
  | gpio_init (pin : Nat)
  /-- A call `gpio_set_dir(pin, out)`. -/
  | gpio_set_dir (pin : Nat) (out : Bool)
  deriving DecidableEq, Repr

/-- What the bus transport answers: the value returned by the `n`-th call of
`i2c_write_blocking` (the number of bytes written, or a negative error code). -/
abbrev Transport := Nat → Int

/-- The driver together with its environment: the events so far, oldest first, and the
number of bus writes already made. -/
structure World where
  lcd : DisplayControl
  trace : List Event := []
  tx : Nat := 0
  deriving DecidableEq, Repr

/-- Faults of the embedding. -/
inductive Fault where
  /-- An index outside an array or beyond the end of a string: undefined behaviour. -/
  | outOfBounds
  /-- The fuel given to a loop whose counter can wrap around is used up. -/
  | outOfFuel
  deriving DecidableEq, Repr

deriving instance DecidableEq for Except

/-- Appends one event to the trace. -/
def emit (e : Event) (w : World) : World :=
  { w with trace := w.trace ++ [e] }

/-- The SDK call `sleep_us`. -/
def sleep_us (us : Nat) (w : World) : World := emit (Event.sleep_us us) w

/-- The SDK call `sleep_ms`. -/
def sleep_ms (ms : Nat) (w : World) : World := emit (Event.sleep_ms ms) w

/-- The C library call `printf`. -/
def printf (fmt : String) (args : List Nat) (w : World) : World :=
  emit (Event.printf fmt args) w

/-- The statement `TxBytesSent = i2c_write_blocking(I2C, hardware_address, &byte, 1, false);`:
the write is recorded, the transport's answer is stored in `TxBytesSent`. -/
def i2c_write_byte (bus : Transport) (byte : Nat) (w : World) : World :=
  { lcd := { w.lcd with TxBytesSent := bus w.tx }
    trace := w.trace ++ [Event.i2c_write_blocking w.lcd.hardware_address [byte] false]
    tx := w.tx + 1 }

/-! ## Private methods -/

/-- `DisplayControl::lcd_send_byte` (source lines 227-245). -/
def lcd_send_byte (bus : Transport) (mostNibble leastNibble : Nat) (w : World) : World :=
  let w := i2c_write_byte bus mostNibble w
  let w := if w.lcd.TxBytesSent < 1 then
      printf "Byte 0x%02X\n failed to send!\n" [mostNibble] w else w
  let w := sleep_us 600 w
  let w := i2c_write_byte bus setEnableLow w
  let w := sleep_us 600 w
  let w := i2c_write_byte bus leastNibble w
  let w := if w.lcd.TxBytesSent < 1 then
      printf "Byte 0x%02X\n failed to send!\n" [leastNibble] w else w
  let w := sleep_us 600 w
  let w := i2c_write_byte bus setEnableLow w
  sleep_us 600 w

/-- The pair of nibbles `prepare_command` computes from `data` (source lines 200-207). -/
def commandNibbles (data : Nat) : Nat × Nat :=
  ((((data &&& 0xF0) ||| Backlight.Backlight) ||| Flags.Set_Enable_High) % 256,
   ((((data <<< 4) &&& 0xF0) ||| Backlight.Backlight) ||| Flags.Set_Enable_High) % 256)

/-- The pair of nibbles `prepare_character` computes from `data` (source lines 213-222);
`&` binds tighter than `|`. -/
def characterNibbles (data : Nat) : Nat × Nat :=
  (((data &&& 0xF0) ||| Backlight.Backlight ||| Flags.Set_Enable_High
      ||| Flags.Character) % 256,
   (((data <<< 4) &&& 0xF0) ||| Backlight.Backlight ||| Flags.Set_Enable_High
      ||| Flags.Character) % 256)

/-- `DisplayControl::prepare_command` (source lines 199-210). -/
def prepare_command (bus : Transport) (data : Nat) (w : World) : World :=
  lcd_send_byte bus (commandNibbles data).1 (commandNibbles data).2 w

/-- `DisplayControl::prepare_character` (source lines 212-225). -/
def prepare_character (bus : Transport) (data : Nat) (w : World) : World :=
  lcd_send_byte bus (characterNibbles data).1 (characterNibbles data).2 w

/-- `DisplayControl::init_display` (source lines 247-284). -/
def init_display (bus : Transport) (w : World) : World :=
  let w := printf "Display init started\n" [] w
  let w := prepare_command bus 0x03 w
  let w := sleep_ms 5 w
  let w := prepare_command bus 0x03 w
  let w := sleep_ms 5 w
  let w := prepare_command bus 0x03 w
  let w := sleep_us 150 w
  let w := prepare_command bus 0x02 w
  let w := printf "(0x03)\n(0x03)\n(0x03)\n(0x02)\nEntered into 4-bit operation mode...\n\n" [] w
  let w := prepare_command bus ((Commands.Set_Function ||| Function.Two_Line_Mode) % 256) w
  let w := printf "(0x28) : Display Function: 2 line mode configured...\n" [] w
  let w := prepare_command bus
    ((Commands.Set_Entry_Mode ||| DisplayEntryMode.Entry_Left) % 256) w
  let w := printf "(0x06) : Display Entry Mode: Entry Left configured...\n" [] w
  let w := prepare_command bus Commands.Clear_Display w
  let w := printf "(0x01) : Display cleared...\n" [] w
  let w := sleep_ms 2 w
  let w := prepare_command bus Backlight.Backlight w
  let w := printf "(0x08) : Backlight enabled...\n" [] w
  let w := prepare_command bus Commands.Return_Home w
  let w := printf "(0x02) : Cursor returned to home position...\n" [] w
  let w := prepare_command bus
    ((Commands.Set_Display_Control ||| PowerState.Display_On) % 256) w
  printf "(0x0C) : Display on, cursor disabled. Ready to operate. \n" [] w

/-! ## Public methods -/

/-- `DisplayControl::moveCursor` (source lines 345-350).  The comparisons are made in
`int`, as the integer promotions of C++ prescribe; an accepted `row` outside the four
entries of `displayMemoryIndex` is an out-of-bounds read. -/
def moveCursor (bus : Transport) (row column : Nat) (w : World) : Except Fault World :=
  if (row : Int) > (w.lcd.rows : Int) - 1 ∨ (column : Int) > (w.lcd.columns : Int) - 1 then
    Except.ok w
  else
    let w := { w with lcd := { w.lcd with currRowWrite := row, currColumnWrite := column } }
    match displayMemoryIndex.get? row with
    | none => Except.error Fault.outOfBounds
    | some base =>
      Except.ok (prepare_command bus ((Commands.Set_DDRAM_Address ||| (base + column)) % 256) w)

/-- `DisplayControl::shiftDisplayLeft` (source lines 337-339). -/
def shiftDisplayLeft (bus : Transport) (w : World) : World :=
  prepare_command bus DisplayShift.Display_Shift_Left w

/-- `DisplayControl::shiftDisplayRight` (source lines 341-343). -/
def shiftDisplayRight (bus : Transport) (w : World) : World :=
  prepare_command bus DisplayShift.Display_Shift_Right w

/-- The expression `text[pos]` on a `std::string`: the character at `pos`, the
terminating `'\0'` at `pos == size()`, undefined behaviour beyond. -/
def string_at (text : List Nat) (pos : Nat) : Except Fault Nat :=
  if pos < text.length then Except.ok (text.getD pos 0)
  else if pos = text.length then Except.ok 0
  else Except.error Fault.outOfBounds

/-- The assignment `writeBuffer[position] = c`; undefined behaviour outside the forty
elements of the array. -/
def writeBuffer_set (position c : Nat) (w : World) : Except Fault World :=
  if position < writeBufferCapacity then
    Except.ok { w with lcd := { w.lcd with writeBuffer := w.lcd.writeBuffer.set position c } }
  else Except.error Fault.outOfBounds

/-- A counted loop whose counter does not wrap: `count` iterations of `body`, the counter
starting at `position` and incremented after each; a fault of the body ends the loop. -/
def forLoop {σ : Type} (body : Nat → σ → Except Fault σ) : Nat → Nat → σ → Except Fault σ
  | 0, _, s => Except.ok s
  | count + 1, position, s =>
    match body position s with
    | Except.error e => Except.error e
    | Except.ok s => forLoop body count (position + 1) s

/-- The body `writeBuffer[position] = text[position];` of the two copy loops of `print`. -/
def copyBody (text : List Nat) (position : Nat) (w : World) : Except Fault World :=
  match string_at text position with
  | Except.error e => Except.error e
  | Except.ok c => writeBuffer_set position c w

/-- The body `writeBuffer[position] = ' ';` of the padding loop of `print`. -/
def padBody (position : Nat) (w : World) : Except Fault World :=
  writeBuffer_set position 32 w

/-- The final loop of `print` (source lines 331-334):
`for (char character : writeBuffer) prepare_character(character);`, one call for every
element of the array. -/
def flushBuffer (bus : Transport) (w : World) : World :=
  w.lcd.writeBuffer.foldl (fun w character => prepare_character bus (character % 256) w) w

/-- The body `prepare_character(text[i+j]);` of the inner scroll loop; `i + j` is
computed in `int`. -/
def windowBody (bus : Transport) (text : List Nat) (i j : Nat) (w : World) :
    Except Fault World :=
  match string_at text (i + j) with
  | Except.error e => Except.error e
  | Except.ok c => Except.ok (prepare_character bus (c % 256) w)

/-- The scroll loop of `print` (source lines 320-326):
`for (uint8_t i = 0; i <= iter; ++i) { moveCursor(currRowWrite, 0); for (uint8_t j = 0;
j < displayWidth; ++j) prepare_character(text[i+j]); sleep_ms(500); }`.
The counter `i` is eight bits wide and wraps; `j < displayWidth <= 255` does not. -/
def scrollLoop (bus : Transport) (text : List Nat) (displayWidth iter : Nat) :
    Nat → Nat → World → Except Fault World
  | 0, _, _ => Except.error Fault.outOfFuel
  | fuel + 1, i, w =>
    if i ≤ iter then
      match moveCursor bus w.lcd.currRowWrite 0x00 w with
      | Except.error e => Except.error e
      | Except.ok w =>
        match forLoop (windowBody bus text i) displayWidth 0 w with
        | Except.error e => Except.error e
        | Except.ok w => scrollLoop bus text displayWidth iter fuel ((i + 1) % 256) (sleep_ms 500 w)
    else Except.ok w

/-- `DisplayControl::print` (source lines 295-335).  `fuel` bounds the number of times
the condition of the scroll loop is tested.  `strSize` is `text.size()` as an `int`; the
size of a `std::string` always fits.  The copy loop of the first branch runs to the
literal bound 16, the two loops of the second branch to `strSize` and `displayWidth`. -/
def print (fuel : Nat) (bus : Transport) (text : List Nat) (w : World) : Except Fault World :=
  let strSize : Nat := text.length
  let displayWidth : Nat := w.lcd.columns
  if strSize = displayWidth then
    match forLoop (copyBody text) 16 0 w with
    | Except.error e => Except.error e
    | Except.ok w => Except.ok (flushBuffer bus w)
  else if strSize < displayWidth then
    match forLoop (copyBody text) strSize 0 w with
    | Except.error e => Except.error e
    | Except.ok w =>
      match forLoop padBody (displayWidth - strSize) strSize w with
      | Except.error e => Except.error e
      | Except.ok w => Except.ok (flushBuffer bus w)
  else
    let iter : Nat := (strSize - displayWidth) % 256
    scrollLoop bus text displayWidth iter fuel 0 w

/-! ## Observations on a run -/

/-- The bytes written to the bus, in order. -/
def busBytes : List Event → List Nat
  | [] => []
  | Event.i2c_write_blocking _ src _ :: es => src ++ busBytes es
  | _ :: es => busBytes es

/-- The bus writes and delays of a trace, in order (with the set-up calls of the
constructors): what reaches the hardware.  Console output is left out. -/
def wire : List Event → List Event
  | [] => []
  | Event.printf _ _ :: es => wire es
  | e :: es => e :: wire es

/-- The console output of a trace, in order. -/
def console : List Event → List Event
  | [] => []
  | Event.printf fmt args :: es => Event.printf fmt args :: console es
  | _ :: es => console es

/-- The wire events of one nibble pair sent to the device at `addr`: four one-byte
writes, each followed by a delay of 600 microseconds. -/
def nibblePairWire (addr mostNibble leastNibble : Nat) : List Event :=
  [Event.i2c_write_blocking addr [mostNibble] false, Event.sleep_us 600,
   Event.i2c_write_blocking addr [setEnableLow] false, Event.sleep_us 600,
   Event.i2c_write_blocking addr [leastNibble] false, Event.sleep_us 600,
   Event.i2c_write_blocking addr [setEnableLow] false, Event.sleep_us 600]

/-- The wire events of the command byte `data` framed for the device at `addr`. -/
def commandWire (addr data : Nat) : List Event :=
  nibblePairWire addr (commandNibbles data).1 (commandNibbles data).2

/-- The wire events of the character `data` framed for the device at `addr`. -/
def characterWire (addr data : Nat) : List Event :=
  nibblePairWire addr (characterNibbles data).1 (characterNibbles data).2

/-- What two runs under different transports have in common: everything but the
console output and the member `TxBytesSent`. -/
def settled (w : World) : World :=
  { lcd := { w.lcd with TxBytesSent := 0 }, trace := wire w.trace, tx := w.tx }

/-- What a caller can observe of the display after an operation: the bus writes and
delays, the stored cursor and the write buffer. -/
structure Observation where
  wire : List Event
  currRowWrite : Nat
  currColumnWrite : Nat
  writeBuffer : List Nat
  deriving DecidableEq, Repr

/-- The observation made on a world. -/
def observe (w : World) : Observation :=
  { wire := wire w.trace, currRowWrite := w.lcd.currRowWrite,
    currColumnWrite := w.lcd.currColumnWrite, writeBuffer := w.lcd.writeBuffer }

/-- The observation made on the outcome of a fallible operation. -/
def observeOutcome : Except Fault World → Except Fault Observation
  | Except.error e => Except.error e
  | Except.ok w => Except.ok (observe w)

/-- The array `buf` after the assignments `buf[k] = f k` for `k = p, ..., p + n - 1`, made
in this order: the effect of a counted loop of `print` on the write buffer. -/
def paint (f : Nat → Nat) : Nat → Nat → List Nat → List Nat
  | 0, _, buf => buf
  | n + 1, p, buf => paint f n (p + 1) (buf.set p (f p))

/-- A transport on which every write succeeds, reporting one byte sent. -/
def allSent : Transport := fun _ => 1

/-- A transport whose first write reports no byte sent and whose later writes succeed. -/
def firstLost : Transport := fun n => if n = 0 then 0 else 1

/-- The characters of a string literal as `char` values. -/
def chars (s : String) : List Nat := s.toList.map Char.toNat

/-- A display of `rows` by `columns` at the default bus address, with every other member
at its default initialiser. -/
def display (rows columns : Nat) : World :=
  { lcd := { rows := rows, columns := columns } }

/-! ## Construction -/

/-- The SDK constant `GPIO_FUNC_I2C` of `enum gpio_function`. -/
def GPIO_FUNC_I2C : Nat := 3

/-- The SDK constant `GPIO_OUT`. -/
def GPIO_OUT : Bool := true

/-- The body of the loop `for(const character: writeBuffer){ writeBuffer[character] = ' '; }`
of both constructors (source lines 164-166 and 191-193).  The declaration names no type;
the variable of a range-based `for` is the element of the array, here the element at
`position`, and it is this value that indexes the assignment. -/
def fillBody (position : Nat) (w : World) : Except Fault World :=
  let character := w.lcd.writeBuffer.getD position 0
  writeBuffer_set character 32 w

/-- The SDK set-up calls both constructors make once the members are set (source lines
155-161 and 182-188). -/
def constructorSetup (w : World) : World :=
  let w := emit (Event.i2c_init 100000) w
  let w := emit (Event.gpio_set_function w.lcd.SDA GPIO_FUNC_I2C) w
  let w := emit (Event.gpio_set_function w.lcd.SCL GPIO_FUNC_I2C) w
  let w := emit (Event.gpio_pull_up w.lcd.SDA) w
  let w := emit (Event.gpio_pull_up w.lcd.SCL) w
  let w := emit (Event.gpio_init w.lcd.LEDgpio) w
  emit (Event.gpio_set_dir w.lcd.LEDgpio GPIO_OUT) w

/-- The statements both constructors share after the members are set (source lines
154-169 and 181-196): the SDK set-up calls, the loop over the write buffer and
`init_display`. -/
def constructorBody (bus : Transport) (w : World) : Except Fault World :=
  match forLoop fillBody writeBufferCapacity 0 (constructorSetup w) with
  | Except.error e => Except.error e
  | Except.ok w => Except.ok (init_display bus w)

set_option linter.dupNamespace false in
/-- The constructor `DisplayControl::DisplayControl(I2C, SDA, SCL, hardware_address,
display_rows, display_columns)` (source lines 172-197).  The bus instance `I2C` is the
transport `bus`; the other arguments are stored as they come. -/
def DisplayControl.DisplayControl (bus : Transport)
    (SDA SCL hardware_address display_rows display_columns : Nat) : Except Fault World :=
  constructorBody bus
    { lcd := { SDA := SDA, SCL := SCL, hardware_address := hardware_address,
               rows := display_rows, columns := display_columns } }

/-- The constructor `DisplayControl::DisplayControl()` (source lines 151-170): every
member keeps its default initialiser. -/
def DisplayControl.DisplayControl_default (bus : Transport) : Except Fault World :=
  constructorBody bus { lcd := {} }

/-! ## Sequences of calls -/

/-- One call of a public method that touches the display. -/
inductive Call where
  /-- The call `print(text)`, run with `fuel`. -/
  | print (fuel : Nat) (text : List Nat)
  /-- The call `moveCursor(row, column)`. -/
  | moveCursor (row column : Nat)
  /-- The call `shiftDisplayLeft()`. -/
  | shiftDisplayLeft
  /-- The call `shiftDisplayRight()`. -/
  | shiftDisplayRight
  deriving DecidableEq, Repr

/-- The effect of one call. -/
def Call.run (bus : Transport) (c : Call) (w : World) : Except Fault World :=
  match c with
  | Call.print fuel text => LCD.print fuel bus text w
  | Call.moveCursor row column => LCD.moveCursor bus row column w
  | Call.shiftDisplayLeft => Except.ok (LCD.shiftDisplayLeft bus w)
  | Call.shiftDisplayRight => Except.ok (LCD.shiftDisplayRight bus w)

/-- The effect of a sequence of calls, made one after the other; a fault ends it. -/
def runCalls (bus : Transport) : List Call → World → Except Fault World
  | [], w => Except.ok w
  | c :: cs, w =>
    match c.run bus w with
    | Except.error e => Except.error e
    | Except.ok w => runCalls bus cs w

/-- A property of the world an operation returns; nothing is asked of a faulting run. -/
def onReturn (P : World → Prop) : Except Fault World → Prop
  | Except.error _ => True
  | Except.ok w => P w

/-- The stored cursor lies on the display. -/
def cursorOnDisplay (w : World) : Prop :=
  w.lcd.currRowWrite < w.lcd.rows ∧ w.lcd.currColumnWrite < w.lcd.columns

/-- The control lines of a byte on the bus: backlight bit set, read bit clear, and the low
four bits one of `0x8`, `0xC`, `0xD`. -/
def controlLines (b : Nat) : Prop :=
  b &&& Backlight.Backlight = Backlight.Backlight ∧ b &&& Flags.Read = 0
    ∧ (b % 16 = 0x8 ∨ b % 16 = 0xC ∨ b % 16 = 0xD)

instance : DecidablePred controlLines := fun b => by
  unfold controlLines
  exact inferInstance

/-- Between the worlds `w0` and `w` only bytes with the property `good` were written to
the bus. -/
def wroteOnly (good : Nat → Prop) (w0 w : World) : Prop :=
  ∃ bytes, busBytes w.trace = busBytes w0.trace ++ bytes ∧ ∀ b ∈ bytes, good b

/-! ## Scroll windows -/

/-- The world after one pass of the scroll loop of `print` at offset `i`, when the cursor
move is accepted and the window lies in the text: the cursor command for column 0 of the
current row, the `displayWidth` characters from offset `i`, the delay of 500 ms. -/
def scrollWindow (bus : Transport) (text : List Nat) (displayWidth i : Nat) (w : World) :
    World :=
  sleep_ms 500
    (((text.drop i).take displayWidth).foldl
      (fun w character => prepare_character bus (character % 256) w)
      (prepare_command bus
        ((Commands.Set_DDRAM_Address
            ||| (displayMemoryIndex.getD w.lcd.currRowWrite 0 + 0)) % 256)
        { w with lcd := { w.lcd with currRowWrite := w.lcd.currRowWrite,
                                     currColumnWrite := 0 } }))

/-- The wire events of one scroll window: the cursor command `cursor`, the characters
`window`, the delay of 500 ms. -/
def windowWire (addr cursor : Nat) (window : List Nat) : List Event :=
  commandWire addr cursor
    ++ window.flatMap (fun c => characterWire addr (c % 256))
    ++ [Event.sleep_ms 500]

/-- The wire events of the `count` scroll windows of width `displayWidth` at the offsets
`first, first + 1, ...` of `text`. -/
def scrollWire (addr cursor : Nat) (text : List Nat) (displayWidth : Nat) :
    Nat → Nat → List Event
  | _, 0 => []
  | first, count + 1 =>
    windowWire addr cursor ((text.drop first).take displayWidth)
      ++ scrollWire addr cursor text displayWidth (first + 1) count

/-! ## Runs that have not returned yet -/

/-- The world the scroll loop of `print` has reached after at most `fuel` tests of its
condition: the loop of `scrollLoop`, line for line, except that the world reached is
returned when the fuel is used up.  On the run that never ends this is its state after
`fuel` passes. -/
def scrollProgress (bus : Transport) (text : List Nat) (displayWidth iter : Nat) :
    Nat → Nat → World → Except Fault World
  | 0, _, w => Except.ok w
  | fuel + 1, i, w =>
    if i ≤ iter then
      match moveCursor bus w.lcd.currRowWrite 0x00 w with
      | Except.error e => Except.error e
      | Except.ok w =>
        match forLoop (windowBody bus text i) displayWidth 0 w with
        | Except.error e => Except.error e
        | Except.ok w =>
          scrollProgress bus text displayWidth iter fuel ((i + 1) % 256) (sleep_ms 500 w)
    else Except.ok w

/-- The world `print` has reached after at most `fuel` tests of the scroll loop's
condition: for a text longer than the display the progress of the scroll loop, otherwise
`print` itself, which has no other loop that can go on. -/
def printProgress (fuel : Nat) (bus : Transport) (text : List Nat) (w : World) :
    Except Fault World :=
  let strSize : Nat := text.length
  let displayWidth : Nat := w.lcd.columns
  if displayWidth < strSize then
    let iter : Nat := (strSize - displayWidth) % 256
    scrollProgress bus text displayWidth iter fuel 0 w
  else print fuel bus text w

/-- The run `progress` follows the run `full`: where `full` returns, `progress` returns
the same world; where `full` is out of fuel, `progress` returns the world reached; where
`full` leaves an array or the text, so does `progress`. -/
def tracks (full progress : Except Fault World) : Prop :=
  match full with
  | Except.ok w => progress = Except.ok w
  | Except.error Fault.outOfFuel => ∃ w, progress = Except.ok w
  | Except.error Fault.outOfBounds => progress = Except.error Fault.outOfBounds

/-- The number of delays of 500 ms in a trace: the number of scroll windows shown. -/
def scrollWindows : List Event → Nat
  | [] => 0
  | Event.sleep_ms ms :: es => (if ms = 500 then 1 else 0) + scrollWindows es
  | _ :: es => scrollWindows es

/-! ## The wire protocol of a nibble pair -/

theorem wire_append (a b : List Event) : wire (a ++ b) = wire a ++ wire b := by
  induction a with
  | nil => rfl
  | cons e es ih => cases e <;> simp [wire, ih]

theorem busBytes_append (a b : List Event) : busBytes (a ++ b) = busBytes a ++ busBytes b := by
  induction a with
  | nil => rfl
  | cons e es ih => cases e <;> simp [busBytes, ih]

theorem console_append (a b : List Event) : console (a ++ b) = console a ++ console b := by
  induction a with
  | nil => rfl
  | cons e es ih => cases e <;> simp [console, ih]

theorem lcd_send_byte_lcd (bus : Transport) (m l : Nat) (w : World) :
    (lcd_send_byte bus m l w).lcd = { w.lcd with TxBytesSent := bus (w.tx + 3) } := by
  simp only [lcd_send_byte, i2c_write_byte, sleep_us, printf, emit]
  split_ifs <;> rfl

theorem lcd_send_byte_tx (bus : Transport) (m l : Nat) (w : World) :
    (lcd_send_byte bus m l w).tx = w.tx + 4 := by
  simp only [lcd_send_byte, i2c_write_byte, sleep_us, printf, emit]
  split_ifs <;> rfl

theorem lcd_send_byte_wire (bus : Transport) (m l : Nat) (w : World) :
    wire (lcd_send_byte bus m l w).trace
      = wire w.trace ++ nibblePairWire w.lcd.hardware_address m l := by
  simp only [lcd_send_byte, i2c_write_byte, sleep_us, printf, emit]
  split_ifs <;> simp [wire_append, wire, nibblePairWire]

theorem lcd_send_byte_console (bus : Transport) (m l : Nat) (w : World) :
    console (lcd_send_byte bus m l w).trace
      = console w.trace
        ++ (if bus w.tx < 1 then [Event.printf "Byte 0x%02X\n failed to send!\n" [m]] else [])
        ++ (if bus (w.tx + 2) < 1 then
              [Event.printf "Byte 0x%02X\n failed to send!\n" [l]] else []) := by
  simp only [lcd_send_byte, i2c_write_byte, sleep_us, printf, emit]
  split_ifs <;> simp [console_append, console]

theorem lcd_send_byte_busBytes (bus : Transport) (m l : Nat) (w : World) :
    busBytes (lcd_send_byte bus m l w).trace
      = busBytes w.trace ++ [m, setEnableLow, l, setEnableLow] := by
  simp only [lcd_send_byte, i2c_write_byte, sleep_us, printf, emit]
  split_ifs <;> simp [busBytes_append, busBytes]

/-! ## Framing -/

theorem and_F0_mod (x : Nat) : x &&& 0xF0 = (x % 256) &&& 0xF0 := by
  have h : x % 256 = x &&& 255 := (Nat.and_pow_two_sub_one_eq_mod x 8).symm
  rw [h, Nat.and_assoc]
  rfl

set_option maxRecDepth 100000 in
theorem commandNibble_fits_byte (c : Nat) (hc : c < 256) :
    ((c &&& 0xF0) ||| 0x08 ||| 0x04) % 256 = ((c &&& 0xF0) ||| 0x08 ||| 0x04) := by
  revert c
  decide

set_option maxRecDepth 100000 in
theorem characterNibble_fits_byte (c : Nat) (hc : c < 256) :
    ((c &&& 0xF0) ||| 0x08 ||| 0x04 ||| 0x01) % 256
      = ((c &&& 0xF0) ||| 0x08 ||| 0x04 ||| 0x01) := by
  revert c
  decide

set_option maxRecDepth 100000 in
theorem registerSelect_byte (c : Nat) (hc : c < 256) :
    ((c &&& 0xF0) ||| 0x08 ||| 0x04 ||| 0x01) ^^^ ((c &&& 0xF0) ||| 0x08 ||| 0x04) = 0x01 := by
  revert c
  decide

theorem commandNibble_fits (x : Nat) :
    ((x &&& 0xF0) ||| 0x08 ||| 0x04) % 256 = ((x &&& 0xF0) ||| 0x08 ||| 0x04) := by
  rw [and_F0_mod x]
  exact commandNibble_fits_byte _ (Nat.mod_lt _ (by norm_num))

theorem characterNibble_fits (x : Nat) :
    ((x &&& 0xF0) ||| 0x08 ||| 0x04 ||| 0x01) % 256
      = ((x &&& 0xF0) ||| 0x08 ||| 0x04 ||| 0x01) := by
  rw [and_F0_mod x]
  exact characterNibble_fits_byte _ (Nat.mod_lt _ (by norm_num))

theorem registerSelect_only (x : Nat) :
    ((x &&& 0xF0) ||| 0x08 ||| 0x04 ||| 0x01) ^^^ ((x &&& 0xF0) ||| 0x08 ||| 0x04) = 0x01 := by
  rw [and_F0_mod x]
  exact registerSelect_byte _ (Nat.mod_lt _ (by norm_num))

theorem commandNibbles_eq (b : Nat) :
    commandNibbles b
      = ((b &&& 0xF0) ||| 0x08 ||| 0x04, ((b <<< 4) &&& 0xF0) ||| 0x08 ||| 0x04) := by
  simp only [commandNibbles, Backlight.Backlight, Flags.Set_Enable_High]
  rw [commandNibble_fits b, commandNibble_fits (b <<< 4)]

theorem characterNibbles_eq (b : Nat) :
    characterNibbles b
      = ((b &&& 0xF0) ||| 0x08 ||| 0x04 ||| 0x01,
         ((b <<< 4) &&& 0xF0) ||| 0x08 ||| 0x04 ||| 0x01) := by
  simp only [characterNibbles, Backlight.Backlight, Flags.Set_Enable_High, Flags.Character]
  rw [characterNibble_fits b, characterNibble_fits (b <<< 4)]

/-- C6: for every byte `b`, `prepare_command` passes to `lcd_send_byte` the pair
`((b & 0xF0) | 0x08 | 0x04, ((b << 4) & 0xF0) | 0x08 | 0x04)` and `prepare_character` the
pair `((b & 0xF0) | 0x08 | 0x04 | 0x01, ((b << 4) & 0xF0) | 0x08 | 0x04 | 0x01)`, whatever
the driver state and the transport; the character nibbles differ from the command nibbles
in exactly the register-select bit `0x01` (their exclusive or is `0x01`). -/
theorem framing_is_pure (b : Nat) (bus : Transport) (w : World) :
    prepare_command bus b w
        = lcd_send_byte bus ((b &&& 0xF0) ||| 0x08 ||| 0x04)
            (((b <<< 4) &&& 0xF0) ||| 0x08 ||| 0x04) w
    ∧ prepare_character bus b w
        = lcd_send_byte bus ((b &&& 0xF0) ||| 0x08 ||| 0x04 ||| 0x01)
            (((b <<< 4) &&& 0xF0) ||| 0x08 ||| 0x04 ||| 0x01) w
    ∧ (characterNibbles b).1 ^^^ (commandNibbles b).1 = Flags.Register_Select
    ∧ (characterNibbles b).2 ^^^ (commandNibbles b).2 = Flags.Register_Select := by
  refine ⟨?_, ?_, ?_, ?_⟩
  · simp only [prepare_command, commandNibbles_eq]
  · simp only [prepare_character, characterNibbles_eq]
  · simp only [characterNibbles_eq, commandNibbles_eq, Flags.Register_Select]
    exact registerSelect_only b
  · simp only [characterNibbles_eq, commandNibbles_eq, Flags.Register_Select]
    exact registerSelect_only (b <<< 4)

/-! ## The falling edge -/

/-- C7, as the claim states it, fails: after the nibble `0x2C` (the high nibble of the
command `0x28`) the falling-edge byte on the bus is `0x08`, not
`(0x2C & 0xF0) | 0x08 = 0x28`. -/
theorem falling_edge_drops_data_bits :
    busBytes (lcd_send_byte allSent 0x2C 0x8C (display 2 16)).trace = [0x2C, 0x08, 0x8C, 0x08]
    ∧ (0x2C &&& 0xF0) ||| 0x08 = 0x28 := by
  decide

/-- C7, amended: for every nibble pair, every transport and every state, the byte written
after each nibble is the constant `setEnableLow = 0x08`: the backlight bit alone, with the
enable, read/write and register-select bits and all four data bits clear, whatever the
nibble. -/
theorem falling_edge_is_setEnableLow (bus : Transport) (m l : Nat) (w : World) :
    busBytes (lcd_send_byte bus m l w).trace = busBytes w.trace ++ [m, 0x08, l, 0x08]
    ∧ setEnableLow = Backlight.Backlight
    ∧ setEnableLow &&& (0xF0 ||| Flags.Set_Enable_High ||| Flags.Read
        ||| Flags.Register_Select) = 0 := by
  refine ⟨?_, by decide, by decide⟩
  rw [lcd_send_byte_busBytes]
  rfl

/-! ## Effects of the framed transmissions -/

theorem prepare_command_wire (bus : Transport) (data : Nat) (w : World) :
    wire (prepare_command bus data w).trace
      = wire w.trace ++ commandWire w.lcd.hardware_address data := by
  simp only [prepare_command, lcd_send_byte_wire, commandWire]

theorem prepare_command_lcd (bus : Transport) (data : Nat) (w : World) :
    (prepare_command bus data w).lcd = { w.lcd with TxBytesSent := bus (w.tx + 3) } := by
  simp only [prepare_command, lcd_send_byte_lcd]

theorem prepare_command_tx (bus : Transport) (data : Nat) (w : World) :
    (prepare_command bus data w).tx = w.tx + 4 := by
  simp only [prepare_command, lcd_send_byte_tx]

theorem prepare_character_wire (bus : Transport) (data : Nat) (w : World) :
    wire (prepare_character bus data w).trace
      = wire w.trace ++ characterWire w.lcd.hardware_address data := by
  simp only [prepare_character, lcd_send_byte_wire, characterWire]

theorem prepare_character_lcd (bus : Transport) (data : Nat) (w : World) :
    (prepare_character bus data w).lcd = { w.lcd with TxBytesSent := bus (w.tx + 3) } := by
  simp only [prepare_character, lcd_send_byte_lcd]

theorem prepare_character_tx (bus : Transport) (data : Nat) (w : World) :
    (prepare_character bus data w).tx = w.tx + 4 := by
  simp only [prepare_character, lcd_send_byte_tx]

theorem sleep_ms_wire (ms : Nat) (w : World) :
    wire (sleep_ms ms w).trace = wire w.trace ++ [Event.sleep_ms ms] := by
  simp [sleep_ms, emit, wire_append, wire]

theorem sleep_us_wire (us : Nat) (w : World) :
    wire (sleep_us us w).trace = wire w.trace ++ [Event.sleep_us us] := by
  simp [sleep_us, emit, wire_append, wire]

theorem printf_wire (fmt : String) (args : List Nat) (w : World) :
    wire (printf fmt args w).trace = wire w.trace := by
  simp [printf, emit, wire_append, wire]

theorem sleep_ms_lcd (ms : Nat) (w : World) : (sleep_ms ms w).lcd = w.lcd := rfl

theorem sleep_us_lcd (us : Nat) (w : World) : (sleep_us us w).lcd = w.lcd := rfl

theorem printf_lcd (fmt : String) (args : List Nat) (w : World) :
    (printf fmt args w).lcd = w.lcd := rfl

theorem sleep_ms_tx (ms : Nat) (w : World) : (sleep_ms ms w).tx = w.tx := rfl

theorem sleep_us_tx (us : Nat) (w : World) : (sleep_us us w).tx = w.tx := rfl

theorem printf_tx (fmt : String) (args : List Nat) (w : World) :
    (printf fmt args w).tx = w.tx := rfl

/-! ## Initialisation -/

/-- C8: for every transport and every starting state, the bus writes and delays of
`init_display` are exactly the command frames of the ten bytes `0x03, 0x03, 0x03, 0x02,
0x28, 0x06, 0x01, 0x08, 0x02, 0x0C`, in this order, with the delays of 5 ms, 5 ms, 150 us
after the first three and of 2 ms after `0x01`, and nothing else. -/
theorem init_display_sequence (bus : Transport) (w : World) :
    wire (init_display bus w).trace
      = wire w.trace
        ++ (commandWire w.lcd.hardware_address 0x03 ++ [Event.sleep_ms 5]
        ++ commandWire w.lcd.hardware_address 0x03 ++ [Event.sleep_ms 5]
        ++ commandWire w.lcd.hardware_address 0x03 ++ [Event.sleep_us 150]
        ++ commandWire w.lcd.hardware_address 0x02
        ++ commandWire w.lcd.hardware_address 0x28
        ++ commandWire w.lcd.hardware_address 0x06
        ++ commandWire w.lcd.hardware_address 0x01 ++ [Event.sleep_ms 2]
        ++ commandWire w.lcd.hardware_address 0x08
        ++ commandWire w.lcd.hardware_address 0x02
        ++ commandWire w.lcd.hardware_address 0x0C) := by
  simp only [init_display, printf_wire, prepare_command_wire, sleep_ms_wire, sleep_us_wire,
    printf_lcd, prepare_command_lcd, sleep_ms_lcd, sleep_us_lcd, List.append_assoc,
    Commands.Set_Function, Function.Two_Line_Mode, Commands.Set_Entry_Mode,
    DisplayEntryMode.Entry_Left, Commands.Clear_Display, Backlight.Backlight,
    Commands.Return_Home, Commands.Set_Display_Control, PowerState.Display_On]
  rfl

/-! ## Reporting of failed writes -/

/-- C9, as the claim states it, fails: when the first bus write of `shiftDisplayLeft`, or
of an accepted `moveCursor`, reports no byte sent, the driver object after the operation
is equal, `TxBytesSent` included, to the one after the run in which every write
succeeds; the operations return nothing. -/
theorem lost_write_leaves_no_record :
    firstLost 0 < 1
    ∧ (shiftDisplayLeft firstLost (display 2 16)).lcd
        = (shiftDisplayLeft allSent (display 2 16)).lcd
    ∧ (moveCursor firstLost 1 3 (display 2 16)).map World.lcd
        = (moveCursor allSent 1 3 (display 2 16)).map World.lcd := by
  decide

/-- C9, amended: a nibble-pair send never reports a failed write to its caller.  Of the
four results only the last one is kept in `TxBytesSent`; a first or third write (a data
nibble) that reports less than one byte prints the console message
`Byte 0x.. failed to send!`; a failed second write leaves no mark at all; no other member
of the driver changes. -/
theorem lost_write_report (bus : Transport) (m l : Nat) (w : World) :
    (lcd_send_byte bus m l w).lcd = { w.lcd with TxBytesSent := bus (w.tx + 3) }
    ∧ console (lcd_send_byte bus m l w).trace
        = console w.trace
          ++ (if bus w.tx < 1 then
                [Event.printf "Byte 0x%02X\n failed to send!\n" [m]] else [])
          ++ (if bus (w.tx + 2) < 1 then
                [Event.printf "Byte 0x%02X\n failed to send!\n" [l]] else []) :=
  ⟨lcd_send_byte_lcd bus m l w, lcd_send_byte_console bus m l w⟩

/-! ## Cursor addressing -/

theorem shl_F0_mod (x : Nat) : ((x % 256) <<< 4) &&& 0xF0 = (x <<< 4) &&& 0xF0 := by
  rw [and_F0_mod (x <<< 4), and_F0_mod ((x % 256) <<< 4)]
  congr 1
  simp only [Nat.shiftLeft_eq]
  omega

theorem commandNibbles_mod (x : Nat) : commandNibbles (x % 256) = commandNibbles x := by
  rw [commandNibbles_eq, commandNibbles_eq, shl_F0_mod, ← and_F0_mod]

theorem characterNibbles_mod (x : Nat) : characterNibbles (x % 256) = characterNibbles x := by
  rw [characterNibbles_eq, characterNibbles_eq, shl_F0_mod, ← and_F0_mod]

theorem commandWire_mod (addr x : Nat) : commandWire addr (x % 256) = commandWire addr x := by
  simp only [commandWire, commandNibbles_mod]

theorem characterWire_mod (addr x : Nat) :
    characterWire addr (x % 256) = characterWire addr x := by
  simp only [characterWire, characterNibbles_mod]

theorem moveCursor_rejected (bus : Transport) (row column : Nat) (w : World)
    (h : w.lcd.rows ≤ row ∨ w.lcd.columns ≤ column) :
    moveCursor bus row column w = Except.ok w := by
  unfold moveCursor
  rw [if_pos]
  omega

theorem moveCursor_accepted (bus : Transport) (row column base : Nat) (w : World)
    (hr : row < w.lcd.rows) (hc : column < w.lcd.columns)
    (hb : displayMemoryIndex.get? row = some base) :
    moveCursor bus row column w
      = Except.ok (prepare_command bus ((0x80 ||| (base + column)) % 256)
          { w with lcd := { w.lcd with currRowWrite := row, currColumnWrite := column } }) := by
  unfold moveCursor
  rw [if_neg (by omega)]
  simp only [hb, Commands.Set_DDRAM_Address]

theorem displayMemoryIndex_some (row : Nat) (h : row < 4) :
    ∃ base, displayMemoryIndex.get? row = some base := by
  interval_cases row <;> simp [displayMemoryIndex]

/-- C5 at a failing input: on a driver with five rows `moveCursor(4, 0)` passes the test
on rows and columns, so the claim asks for the command byte `0x80 | (base_address[4] + 0)`;
the table `displayMemoryIndex` has four entries and the read of entry 4 is out of
bounds. -/
theorem moveCursor_row_beyond_table :
    (4 : Nat) < (display 5 16).lcd.rows ∧ (0 : Nat) < (display 5 16).lcd.columns
    ∧ displayMemoryIndex.get? 4 = none
    ∧ moveCursor allSent 4 0 (display 5 16) = Except.error Fault.outOfBounds := by
  decide

/-- What `moveCursor` does wherever the table has an entry: for every driver, every
transport and every `row` and `column`, if `row >= rows` or `column >= columns` it returns
with the world unchanged (no event, no member changed); otherwise, when `row < 4`, it
sends exactly one command frame, of the byte `0x80 | (displayMemoryIndex[row] + column)`
(narrowed to eight bits), and the driver afterwards differs from the one before only in
`currRowWrite = row`, `currColumnWrite = column` and `TxBytesSent`. -/
theorem moveCursor_contract (bus : Transport) (row column : Nat) (w : World) :
    (w.lcd.rows ≤ row ∨ w.lcd.columns ≤ column → moveCursor bus row column w = Except.ok w)
    ∧ (row < w.lcd.rows → column < w.lcd.columns → row < 4 →
        ∃ base w', [0x00, 0x40, 0x14, 0x54].get? row = some base
          ∧ moveCursor bus row column w = Except.ok w'
          ∧ wire w'.trace
              = wire w.trace
                ++ commandWire w.lcd.hardware_address ((0x80 ||| (base + column)) % 256)
          ∧ w'.lcd = { w.lcd with currRowWrite := row, currColumnWrite := column,
                                  TxBytesSent := bus (w.tx + 3) }) := by
  refine ⟨moveCursor_rejected bus row column w, ?_⟩
  intro hr hc h4
  obtain ⟨base, hb⟩ := displayMemoryIndex_some row h4
  refine ⟨base, _, hb, moveCursor_accepted bus row column base w hr hc hb, ?_, ?_⟩
  · rw [prepare_command_wire]
  · rw [prepare_command_lcd]

/-- An instance of `moveCursor_contract`: `moveCursor(1, 20)` on the 2x16 display changes
nothing, and `moveCursor(1, 3)` sends the command `0x80 | (0x40 + 3) = 0xC3`. -/
theorem moveCursor_contract_witness :
    moveCursor allSent 1 20 (display 2 16) = Except.ok (display 2 16)
    ∧ ∃ base w', [0x00, 0x40, 0x14, 0x54].get? 1 = some base
        ∧ moveCursor allSent 1 3 (display 2 16) = Except.ok w'
        ∧ wire w'.trace
            = wire (display 2 16).trace
              ++ commandWire (display 2 16).lcd.hardware_address ((0x80 ||| (base + 3)) % 256)
        ∧ w'.lcd = { (display 2 16).lcd with currRowWrite := 1, currColumnWrite := 3,
                                             TxBytesSent := allSent ((display 2 16).tx + 3) } :=
  ⟨(moveCursor_contract allSent 1 20 (display 2 16)).1 (Or.inr (by decide)),
   (moveCursor_contract allSent 1 3 (display 2 16)).2 (by decide) (by decide) (by decide)⟩

/-! ## The write buffer -/

theorem paint_length (f : Nat → Nat) :
    ∀ (n p : Nat) (buf : List Nat), (paint f n p buf).length = buf.length := by
  intro n
  induction n with
  | zero => intro p buf; rfl
  | succ n ih => intro p buf; simp only [paint, ih, List.length_set]

theorem paint_getElem? (f : Nat → Nat) :
    ∀ (n p : Nat) (buf : List Nat) (k : Nat),
      (paint f n p buf)[k]?
        = if p ≤ k ∧ k < p + n ∧ k < buf.length then some (f k) else buf[k]? := by
  intro n
  induction n with
  | zero =>
    intro p buf k
    simp only [paint]
    rw [if_neg (by omega)]
  | succ n ih =>
    intro p buf k
    simp only [paint, ih, List.length_set, List.getElem?_set]
    by_cases hpk : p = k
    · subst hpk
      by_cases hlt : p < buf.length
      · rw [if_neg (by omega), if_pos rfl, if_pos hlt, if_pos (by omega)]
      · rw [if_neg (by omega), if_pos rfl, if_neg hlt, if_neg (by omega)]
        exact (List.getElem?_eq_none (by omega)).symm
    · rw [if_neg hpk]
      by_cases hc : p + 1 ≤ k ∧ k < p + 1 + n ∧ k < buf.length
      · rw [if_pos hc, if_pos (by omega)]
      · rw [if_neg hc, if_neg (by omega)]

theorem writeBuffer_set_ok (position c : Nat) (w : World) (h : position < 40) :
    writeBuffer_set position c w
      = Except.ok { w with lcd := { w.lcd with
          writeBuffer := w.lcd.writeBuffer.set position c } } := by
  unfold writeBuffer_set writeBufferCapacity
  rw [if_pos h]

theorem string_at_ok (text : List Nat) (pos : Nat) (h : pos ≤ text.length) :
    string_at text pos = Except.ok (text.getD pos 0) := by
  unfold string_at
  by_cases hlt : pos < text.length
  · rw [if_pos hlt]
  · have heq : pos = text.length := by omega
    rw [if_neg hlt, if_pos heq]
    subst heq
    simp

theorem forLoop_paint (f : Nat → Nat) (body : Nat → World → Except Fault World) (bound : Nat)
    (hbody : ∀ p w, p < bound → body p w = writeBuffer_set p (f p) w) :
    ∀ (n p : Nat) (w : World), p + n ≤ bound → p + n ≤ 40 →
      forLoop body n p w
        = Except.ok { w with lcd := { w.lcd with
            writeBuffer := paint f n p w.lcd.writeBuffer } } := by
  intro n
  induction n with
  | zero => intro p w _ _; rfl
  | succ n ih =>
    intro p w hb hcap
    simp only [forLoop]
    rw [hbody p w (by omega), writeBuffer_set_ok p (f p) w (by omega)]
    simp only
    rw [ih (p + 1) _ (by omega) (by omega)]
    rfl

theorem copyLoop_paint (text : List Nat) (n p : Nat) (w : World)
    (htext : p + n ≤ text.length + 1) (hcap : p + n ≤ 40) :
    forLoop (copyBody text) n p w
      = Except.ok { w with lcd := { w.lcd with
          writeBuffer := paint (fun k => text.getD k 0) n p w.lcd.writeBuffer } } := by
  refine forLoop_paint _ _ (text.length + 1) ?_ n p w htext hcap
  intro q v hq
  simp only [copyBody, string_at_ok text q (by omega)]

theorem padLoop_paint (n p : Nat) (w : World) (hcap : p + n ≤ 40) :
    forLoop padBody n p w
      = Except.ok { w with lcd := { w.lcd with
          writeBuffer := paint (fun _ => 32) n p w.lcd.writeBuffer } } := by
  refine forLoop_paint _ _ (p + n) ?_ n p w (le_refl _) hcap
  intro q v _
  rfl

/-! ## The flush of the write buffer -/

theorem foldl_prepare_character_lcd (bus : Transport) :
    ∀ (cs : List Nat) (w : World), ∃ t,
      (cs.foldl (fun w character => prepare_character bus (character % 256) w) w).lcd
        = { w.lcd with TxBytesSent := t } := by
  intro cs
  induction cs with
  | nil => intro w; exact ⟨w.lcd.TxBytesSent, rfl⟩
  | cons c cs ih =>
    intro w
    obtain ⟨t, ht⟩ := ih (prepare_character bus (c % 256) w)
    refine ⟨t, ?_⟩
    rw [List.foldl_cons, ht, prepare_character_lcd]

theorem foldl_prepare_character_wire (bus : Transport) :
    ∀ (cs : List Nat) (w : World),
      wire (cs.foldl (fun w character => prepare_character bus (character % 256) w) w).trace
        = wire w.trace
          ++ cs.flatMap (fun c => characterWire w.lcd.hardware_address (c % 256)) := by
  intro cs
  induction cs with
  | nil => intro w; simp
  | cons c cs ih =>
    intro w
    rw [List.foldl_cons, ih, prepare_character_wire, prepare_character_lcd]
    simp

theorem flushBuffer_lcd (bus : Transport) (w : World) :
    ∃ t, (flushBuffer bus w).lcd = { w.lcd with TxBytesSent := t } :=
  foldl_prepare_character_lcd bus w.lcd.writeBuffer w

theorem flushBuffer_wire (bus : Transport) (w : World) :
    wire (flushBuffer bus w).trace
      = wire w.trace
        ++ w.lcd.writeBuffer.flatMap
              (fun c => characterWire w.lcd.hardware_address (c % 256)) :=
  foldl_prepare_character_wire bus w.lcd.writeBuffer w

theorem flushBuffer_writeBuffer (bus : Transport) (w : World) :
    (flushBuffer bus w).lcd.writeBuffer = w.lcd.writeBuffer := by
  obtain ⟨t, ht⟩ := flushBuffer_lcd bus w
  rw [ht]

/-! ## Texts that fit the display -/

theorem padded_take (text buf : List Nat) (width : Nat) (hlen : text.length ≤ width)
    (hbuf : width ≤ buf.length) :
    (paint (fun _ => 32) (width - text.length) text.length
        (paint (fun k => text.getD k 0) text.length 0 buf)).take width
      = text ++ List.replicate (width - text.length) 32 := by
  apply List.ext_getElem?
  intro k
  rw [List.getElem?_take, paint_getElem?, paint_length, paint_getElem?, List.getElem?_append,
    List.getElem?_replicate]
  by_cases hk : k < text.length
  · rw [if_pos (by omega), if_neg (by omega), if_pos (by omega), if_pos hk,
      List.getD_eq_getElem?_getD, List.getElem?_eq_getElem hk]
    rfl
  · rw [if_neg hk]
    by_cases hw : k < width
    · rw [if_pos hw, if_pos (by omega), if_pos (by omega)]
    · rw [if_neg hw, if_neg (by omega)]

theorem print_short (fuel : Nat) (bus : Transport) (text : List Nat) (w : World)
    (hlen : text.length < w.lcd.columns) (hcap : w.lcd.columns ≤ 40) :
    print fuel bus text w
      = Except.ok (flushBuffer bus { w with lcd := { w.lcd with
          writeBuffer := paint (fun _ => 32) (w.lcd.columns - text.length) text.length
            (paint (fun k => text.getD k 0) text.length 0 w.lcd.writeBuffer) } }) := by
  unfold print
  simp only
  rw [if_neg (by omega), if_pos hlen, copyLoop_paint text _ 0 w (by omega) (by omega)]
  simp only
  rw [padLoop_paint _ _ _ (by omega)]

/-- C2: for every text shorter than the column count `W`, with `W` at most the forty
elements of the write buffer, for every prior content of the buffer, every transport and
every fuel, `print` returns, and the first `W` elements of the write buffer are then the
text followed by `W - len` spaces. -/
theorem print_pads_short_text (fuel : Nat) (bus : Transport) (text : List Nat) (w : World)
    (hlen : text.length < w.lcd.columns) (hcap : w.lcd.columns ≤ 40)
    (hbuf : w.lcd.writeBuffer.length = 40) :
    ∃ w', print fuel bus text w = Except.ok w'
      ∧ w'.lcd.writeBuffer.take w.lcd.columns
          = text ++ List.replicate (w.lcd.columns - text.length) 32 := by
  refine ⟨_, print_short fuel bus text w hlen hcap, ?_⟩
  rw [flushBuffer_writeBuffer]
  exact padded_take text w.lcd.writeBuffer w.lcd.columns (by omega) (by omega)

/-- Witness of `print_pads_short_text`: `print("Hi")` on the 2x16 display, and the empty
text, which gives sixteen spaces. -/
theorem print_pads_short_text_witness :
    (∃ w', print 0 allSent (chars "Hi") (display 2 16) = Except.ok w'
      ∧ w'.lcd.writeBuffer.take 16 = chars "Hi" ++ List.replicate (16 - 2) 32)
    ∧ (∃ w', print 0 allSent [] (display 2 16) = Except.ok w'
      ∧ w'.lcd.writeBuffer.take 16 = [] ++ List.replicate (16 - 0) 32) :=
  ⟨print_pads_short_text 0 allSent (chars "Hi") (display 2 16)
      (by decide) (by decide) (by decide),
   print_pads_short_text 0 allSent [] (display 2 16) (by decide) (by decide) (by decide)⟩

/-! ## The branch for a text of exactly the display width -/

set_option maxRecDepth 1000000 in
/-- C3 at a failing input: on a 4x20 display, `print` of the twenty characters
`ABCDEFGHIJKLMNOPQRST` copies only the first sixteen (the loop bound is the literal 16);
the elements 16 to 19 of the write buffer keep their former content, here zero bytes. -/
theorem print_full_width_copies_sixteen :
    (chars "ABCDEFGHIJKLMNOPQRST").length = (display 4 20).lcd.columns
    ∧ (print 0 allSent (chars "ABCDEFGHIJKLMNOPQRST") (display 4 20)).map
          (fun w => w.lcd.writeBuffer.take 20)
        = Except.ok (chars "ABCDEFGHIJKLMNOP" ++ [0, 0, 0, 0])
    ∧ chars "ABCDEFGHIJKLMNOP" ++ [0, 0, 0, 0] ≠ chars "ABCDEFGHIJKLMNOPQRST" := by
  decide

/-! ## The number of character transmissions of a flush -/

set_option maxRecDepth 1000000 in
/-- C4 at a failing input: `print("Hi")` on the 2x16 display sends forty character frames,
one for every element of `writeBuffer[40]`: `H`, `i`, fourteen spaces and the twenty-four
bytes behind them, not sixteen. -/
theorem print_flushes_forty_characters :
    (print 0 allSent (chars "Hi") (display 2 16)).map (fun w => wire w.trace)
      = Except.ok ((chars "Hi" ++ List.replicate 14 32 ++ List.replicate 24 0).flatMap
          (characterWire 0x27))
    ∧ (chars "Hi" ++ List.replicate 14 32 ++ List.replicate 24 0).length = 40
    ∧ (display 2 16).lcd.columns = 16 := by
  decide

/-! ## Scrolling -/

theorem scrollLoop_fuel_mono (bus : Transport) (text : List Nat) (displayWidth iter : Nat) :
    ∀ (fuel i : Nat) (w w' : World),
      scrollLoop bus text displayWidth iter fuel i w = Except.ok w' →
      ∀ k, scrollLoop bus text displayWidth iter (fuel + k) i w = Except.ok w' := by
  intro fuel
  induction fuel with
  | zero => intro i w w' h; simp [scrollLoop] at h
  | succ fuel ih =>
    intro i w w' h k
    rw [Nat.add_right_comm]
    simp only [scrollLoop] at h ⊢
    by_cases hi : i ≤ iter
    · rw [if_pos hi] at h ⊢
      cases hm : moveCursor bus w.lcd.currRowWrite 0 w with
      | error e => rw [hm] at h; simp at h
      | ok w1 =>
        rw [hm] at h
        simp only at h ⊢
        cases hf : forLoop (windowBody bus text i) displayWidth 0 w1 with
        | error e => rw [hf] at h; simp at h
        | ok w2 =>
          rw [hf] at h
          simp only at h ⊢
          exact ih _ _ _ h k
    · rw [if_neg hi] at h ⊢
      exact h

theorem print_fuel_mono (fuel : Nat) (bus : Transport) (text : List Nat) (w w' : World)
    (h : print fuel bus text w = Except.ok w') (k : Nat) :
    print (fuel + k) bus text w = Except.ok w' := by
  unfold print at h ⊢
  simp only at h ⊢
  split_ifs at h ⊢ with h1 h2
  · exact h
  · exact h
  · exact scrollLoop_fuel_mono bus text _ _ fuel 0 w w' h k

set_option maxRecDepth 1000000 in
theorem print_272_two_tests :
    (print 2 allSent (List.replicate 272 65) (display 2 16)).map (fun w => wire w.trace)
      = Except.ok (commandWire 0x27 0x80
          ++ (List.replicate 16 65).flatMap (characterWire 0x27)
          ++ [Event.sleep_ms 500]) := by
  decide

/-- C1 at a failing input: on the 2x16 display, `print` of a text of 272 characters `A`
returns after one scroll window (one cursor command, sixteen character frames, one delay
of 500 ms), whatever the fuel beyond two loop tests: the eight-bit `iter` holds
`(272 - 16) % 256 = 0`, where the claim counts `272 - 16 + 1 = 257` windows. -/
theorem print_scroll_counter_wraps (n : Nat) :
    (print (2 + n) allSent (List.replicate 272 65) (display 2 16)).map (fun w => wire w.trace)
      = Except.ok (commandWire 0x27 0x80
          ++ (List.replicate 16 65).flatMap (characterWire 0x27)
          ++ [Event.sleep_ms 500])
    ∧ (272 - 16) % 256 = 0 ∧ 272 - 16 + 1 = 257 := by
  refine ⟨?_, by decide, by decide⟩
  have h2 := print_272_two_tests
  cases hp : print 2 allSent (List.replicate 272 65) (display 2 16) with
  | error e => rw [hp] at h2; simp [Except.map] at h2
  | ok w0 =>
    rw [hp] at h2
    rw [print_fuel_mono 2 allSent _ _ w0 hp n]
    exact h2

/-! ## Independence of the transport's results -/

theorem settled_lcd_send_byte (bus : Transport) (m l : Nat) (w : World) :
    settled (lcd_send_byte bus m l w)
      = { lcd := (settled w).lcd
          trace := (settled w).trace ++ nibblePairWire (settled w).lcd.hardware_address m l
          tx := (settled w).tx + 4 } := by
  simp only [settled, lcd_send_byte_lcd, lcd_send_byte_tx, lcd_send_byte_wire]

theorem lcd_send_byte_sim (bus bus' : Transport) (m l : Nat) (w w' : World)
    (h : settled w = settled w') :
    settled (lcd_send_byte bus m l w) = settled (lcd_send_byte bus' m l w') := by
  rw [settled_lcd_send_byte, settled_lcd_send_byte, h]

theorem prepare_command_sim (bus bus' : Transport) (data : Nat) (w w' : World)
    (h : settled w = settled w') :
    settled (prepare_command bus data w) = settled (prepare_command bus' data w') :=
  lcd_send_byte_sim bus bus' _ _ w w' h

theorem prepare_character_sim (bus bus' : Transport) (data : Nat) (w w' : World)
    (h : settled w = settled w') :
    settled (prepare_character bus data w) = settled (prepare_character bus' data w') :=
  lcd_send_byte_sim bus bus' _ _ w w' h

theorem settled_sleep_ms (ms : Nat) (w : World) :
    settled (sleep_ms ms w)
      = { settled w with trace := (settled w).trace ++ [Event.sleep_ms ms] } := by
  simp only [settled, sleep_ms_lcd, sleep_ms_tx, sleep_ms_wire]

theorem settled_sleep_us (us : Nat) (w : World) :
    settled (sleep_us us w)
      = { settled w with trace := (settled w).trace ++ [Event.sleep_us us] } := by
  simp only [settled, sleep_us_lcd, sleep_us_tx, sleep_us_wire]

theorem settled_printf (fmt : String) (args : List Nat) (w : World) :
    settled (printf fmt args w) = settled w := by
  simp only [settled, printf_lcd, printf_tx, printf_wire]

theorem sleep_ms_sim (ms : Nat) (w w' : World) (h : settled w = settled w') :
    settled (sleep_ms ms w) = settled (sleep_ms ms w') := by
  rw [settled_sleep_ms, settled_sleep_ms, h]

theorem sleep_us_sim (us : Nat) (w w' : World) (h : settled w = settled w') :
    settled (sleep_us us w) = settled (sleep_us us w') := by
  rw [settled_sleep_us, settled_sleep_us, h]

theorem printf_sim (fmt : String) (args : List Nat) (w w' : World)
    (h : settled w = settled w') :
    settled (printf fmt args w) = settled (printf fmt args w') := by
  rw [settled_printf, settled_printf, h]

theorem init_display_sim (bus bus' : Transport) (w w' : World) (h : settled w = settled w') :
    settled (init_display bus w) = settled (init_display bus' w') := by
  simp only [init_display]
  repeat first
    | exact h
    | apply printf_sim
    | apply prepare_command_sim
    | apply sleep_ms_sim
    | apply sleep_us_sim

theorem settled_rows {w w' : World} (h : settled w = settled w') :
    w.lcd.rows = w'.lcd.rows :=
  congrArg (fun v => v.lcd.rows) h

theorem settled_columns {w w' : World} (h : settled w = settled w') :
    w.lcd.columns = w'.lcd.columns :=
  congrArg (fun v => v.lcd.columns) h

theorem settled_currRowWrite {w w' : World} (h : settled w = settled w') :
    w.lcd.currRowWrite = w'.lcd.currRowWrite :=
  congrArg (fun v => v.lcd.currRowWrite) h

theorem settled_writeBuffer {w w' : World} (h : settled w = settled w') :
    w.lcd.writeBuffer = w'.lcd.writeBuffer :=
  congrArg (fun v => v.lcd.writeBuffer) h

theorem observe_of_settled {w w' : World} (h : settled w = settled w') :
    observe w = observe w' := by
  have h1 : wire w.trace = wire w'.trace := congrArg World.trace h
  have h2 : w.lcd.currColumnWrite = w'.lcd.currColumnWrite :=
    congrArg (fun v => v.lcd.currColumnWrite) h
  simp only [observe, h1, h2, settled_currRowWrite h, settled_writeBuffer h]

theorem settled_cursor (row column : Nat) (w w' : World) (h : settled w = settled w') :
    settled { w with lcd := { w.lcd with currRowWrite := row, currColumnWrite := column } }
      = settled { w' with lcd :=
          { w'.lcd with currRowWrite := row, currColumnWrite := column } } := by
  simp only [settled, World.mk.injEq, DisplayControl.mk.injEq] at h ⊢
  simp [h]

theorem settled_buffer (position c : Nat) (w w' : World) (h : settled w = settled w') :
    settled { w with lcd := { w.lcd with writeBuffer := w.lcd.writeBuffer.set position c } }
      = settled { w' with lcd :=
          { w'.lcd with writeBuffer := w'.lcd.writeBuffer.set position c } } := by
  simp only [settled, World.mk.injEq, DisplayControl.mk.injEq] at h ⊢
  simp [h]

theorem moveCursor_sim (bus bus' : Transport) (row column : Nat) (w w' : World)
    (h : settled w = settled w') :
    (moveCursor bus row column w).map settled = (moveCursor bus' row column w').map settled := by
  unfold moveCursor
  rw [settled_rows h, settled_columns h]
  split_ifs with hc
  · simp only [Except.map, h]
  · cases hb : displayMemoryIndex.get? row with
    | none => rfl
    | some base =>
      simp only [Except.map]
      congr 1
      exact prepare_command_sim bus bus' _ _ _ (settled_cursor row column w w' h)

theorem writeBuffer_set_sim (position c : Nat) (w w' : World) (h : settled w = settled w') :
    (writeBuffer_set position c w).map settled = (writeBuffer_set position c w').map settled := by
  unfold writeBuffer_set
  split_ifs
  · simp only [Except.map]
    congr 1
    exact settled_buffer position c w w' h
  · rfl

theorem copyBody_sim (text : List Nat) (position : Nat) (w w' : World)
    (h : settled w = settled w') :
    (copyBody text position w).map settled = (copyBody text position w').map settled := by
  unfold copyBody
  cases string_at text position with
  | error e => rfl
  | ok c => exact writeBuffer_set_sim position c w w' h

theorem padBody_sim (position : Nat) (w w' : World) (h : settled w = settled w') :
    (padBody position w).map settled = (padBody position w').map settled :=
  writeBuffer_set_sim position 32 w w' h

theorem windowBody_sim (bus bus' : Transport) (text : List Nat) (i j : Nat) (w w' : World)
    (h : settled w = settled w') :
    (windowBody bus text i j w).map settled = (windowBody bus' text i j w').map settled := by
  unfold windowBody
  cases string_at text (i + j) with
  | error e => rfl
  | ok c =>
    simp only [Except.map]
    congr 1
    exact prepare_character_sim bus bus' _ w w' h

theorem forLoop_sim (body body' : Nat → World → Except Fault World)
    (hbody : ∀ p w w', settled w = settled w' →
      (body p w).map settled = (body' p w').map settled) :
    ∀ (n p : Nat) (w w' : World), settled w = settled w' →
      (forLoop body n p w).map settled = (forLoop body' n p w').map settled := by
  intro n
  induction n with
  | zero => intro p w w' h; simp only [forLoop, Except.map, h]
  | succ n ih =>
    intro p w w' h
    have hb := hbody p w w' h
    simp only [forLoop]
    cases h1 : body p w with
    | error e =>
      cases h2 : body' p w' with
      | error e' => rw [h1, h2] at hb; exact hb
      | ok v' => rw [h1, h2] at hb; simp [Except.map] at hb
    | ok v =>
      cases h2 : body' p w' with
      | error e' => rw [h1, h2] at hb; simp [Except.map] at hb
      | ok v' =>
        rw [h1, h2] at hb
        simp only [Except.map, Except.ok.injEq] at hb
        exact ih (p + 1) v v' hb

theorem foldl_prepare_character_sim (bus bus' : Transport) :
    ∀ (cs : List Nat) (w w' : World), settled w = settled w' →
      settled (cs.foldl (fun w character => prepare_character bus (character % 256) w) w)
        = settled
            (cs.foldl (fun w character => prepare_character bus' (character % 256) w) w') := by
  intro cs
  induction cs with
  | nil => intro w w' h; exact h
  | cons c cs ih =>
    intro w w' h
    simp only [List.foldl_cons]
    exact ih _ _ (prepare_character_sim bus bus' _ w w' h)

theorem flushBuffer_sim (bus bus' : Transport) (w w' : World) (h : settled w = settled w') :
    settled (flushBuffer bus w) = settled (flushBuffer bus' w') := by
  unfold flushBuffer
  rw [settled_writeBuffer h]
  exact foldl_prepare_character_sim bus bus' _ w w' h

theorem scrollLoop_sim (bus bus' : Transport) (text : List Nat) (displayWidth iter : Nat) :
    ∀ (fuel i : Nat) (w w' : World), settled w = settled w' →
      (scrollLoop bus text displayWidth iter fuel i w).map settled
        = (scrollLoop bus' text displayWidth iter fuel i w').map settled := by
  intro fuel
  induction fuel with
  | zero => intro i w w' _; rfl
  | succ fuel ih =>
    intro i w w' h
    simp only [scrollLoop]
    split_ifs with hi
    · have hm := moveCursor_sim bus bus' w.lcd.currRowWrite 0 w w' h
      rw [← settled_currRowWrite h]
      cases h1 : moveCursor bus w.lcd.currRowWrite 0 w with
      | error e =>
        cases h2 : moveCursor bus' w.lcd.currRowWrite 0 w' with
        | error e' => rw [h1, h2] at hm; exact hm
        | ok v' => rw [h1, h2] at hm; simp [Except.map] at hm
      | ok v =>
        cases h2 : moveCursor bus' w.lcd.currRowWrite 0 w' with
        | error e' => rw [h1, h2] at hm; simp [Except.map] at hm
        | ok v' =>
          rw [h1, h2] at hm
          simp only [Except.map, Except.ok.injEq] at hm
          have hf := forLoop_sim (windowBody bus text i) (windowBody bus' text i)
            (fun j a b hab => windowBody_sim bus bus' text i j a b hab) displayWidth 0 v v' hm
          simp only
          cases h3 : forLoop (windowBody bus text i) displayWidth 0 v with
          | error e =>
            cases h4 : forLoop (windowBody bus' text i) displayWidth 0 v' with
            | error e' => rw [h3, h4] at hf; exact hf
            | ok u' => rw [h3, h4] at hf; simp [Except.map] at hf
          | ok u =>
            cases h4 : forLoop (windowBody bus' text i) displayWidth 0 v' with
            | error e' => rw [h3, h4] at hf; simp [Except.map] at hf
            | ok u' =>
              rw [h3, h4] at hf
              simp only [Except.map, Except.ok.injEq] at hf
              exact ih _ _ _ (sleep_ms_sim 500 u u' hf)
    · simp only [Except.map, h]

theorem ok_flushBuffer_sim (bus bus' : Transport) (r r' : Except Fault World)
    (h : r.map settled = r'.map settled) :
    (match r with
      | Except.error e => Except.error e
      | Except.ok w => Except.ok (flushBuffer bus w)).map settled
      = (match r' with
          | Except.error e => Except.error e
          | Except.ok w => Except.ok (flushBuffer bus' w)).map settled := by
  cases r with
  | error e =>
    cases r' with
    | error e' => exact h
    | ok v' => simp [Except.map] at h
  | ok v =>
    cases r' with
    | error e' => simp [Except.map] at h
    | ok v' =>
      simp only [Except.map, Except.ok.injEq] at h ⊢
      exact flushBuffer_sim bus bus' v v' h

theorem print_sim (fuel : Nat) (bus bus' : Transport) (text : List Nat) (w w' : World)
    (h : settled w = settled w') :
    (print fuel bus text w).map settled = (print fuel bus' text w').map settled := by
  unfold print
  simp only
  rw [← settled_columns h]
  split_ifs with h1 h2
  · exact ok_flushBuffer_sim bus bus' _ _
      (forLoop_sim _ _ (fun p a b hab => copyBody_sim text p a b hab) 16 0 w w' h)
  · have hc := forLoop_sim _ _ (fun p a b hab => copyBody_sim text p a b hab)
      text.length 0 w w' h
    cases r : forLoop (copyBody text) text.length 0 w with
    | error e =>
      cases r' : forLoop (copyBody text) text.length 0 w' with
      | error e' => rw [r, r'] at hc; exact hc
      | ok v' => rw [r, r'] at hc; simp [Except.map] at hc
    | ok v =>
      cases r' : forLoop (copyBody text) text.length 0 w' with
      | error e' => rw [r, r'] at hc; simp [Except.map] at hc
      | ok v' =>
        rw [r, r'] at hc
        simp only [Except.map, Except.ok.injEq] at hc
        exact ok_flushBuffer_sim bus bus' _ _
          (forLoop_sim _ _ (fun p a b hab => padBody_sim p a b hab) _ _ v v' hc)
  · exact scrollLoop_sim bus bus' text _ _ fuel 0 w w' h

theorem observeOutcome_of_settled {r r' : Except Fault World}
    (h : r.map settled = r'.map settled) : observeOutcome r = observeOutcome r' := by
  cases r with
  | error e =>
    cases r' with
    | error e' =>
      simp only [Except.map, Except.error.injEq] at h
      simp only [observeOutcome, h]
    | ok v' => simp [Except.map] at h
  | ok v =>
    cases r' with
    | error e' => simp [Except.map] at h
    | ok v' =>
      simp only [Except.map, Except.ok.injEq] at h
      simp only [observeOutcome, observe_of_settled h]

/-! ## Runs that are still going -/

theorem moveCursor_fault (bus : Transport) (row column : Nat) (w : World) (e : Fault)
    (h : moveCursor bus row column w = Except.error e) : e = Fault.outOfBounds := by
  unfold moveCursor at h
  split_ifs at h
  cases hb : displayMemoryIndex.get? row with
  | none =>
    rw [hb] at h
    simp only [Except.error.injEq] at h
    exact h.symm
  | some base => rw [hb] at h; simp at h

theorem string_at_fault (text : List Nat) (pos : Nat) (e : Fault)
    (h : string_at text pos = Except.error e) : e = Fault.outOfBounds := by
  unfold string_at at h
  split_ifs at h
  simp only [Except.error.injEq] at h
  exact h.symm

theorem writeBuffer_set_fault (p c : Nat) (w : World) (e : Fault)
    (h : writeBuffer_set p c w = Except.error e) : e = Fault.outOfBounds := by
  unfold writeBuffer_set at h
  split_ifs at h
  simp only [Except.error.injEq] at h
  exact h.symm

theorem windowBody_fault (bus : Transport) (text : List Nat) (i j : Nat) (w : World)
    (e : Fault) (h : windowBody bus text i j w = Except.error e) : e = Fault.outOfBounds := by
  unfold windowBody at h
  cases hs : string_at text (i + j) with
  | error e' =>
    rw [hs] at h
    simp only [Except.error.injEq] at h
    exact h ▸ string_at_fault text (i + j) e' hs
  | ok c => rw [hs] at h; simp at h

theorem copyBody_fault (text : List Nat) (p : Nat) (w : World) (e : Fault)
    (h : copyBody text p w = Except.error e) : e = Fault.outOfBounds := by
  unfold copyBody at h
  cases hs : string_at text p with
  | error e' =>
    rw [hs] at h
    simp only [Except.error.injEq] at h
    exact h ▸ string_at_fault text p e' hs
  | ok c => rw [hs] at h; exact writeBuffer_set_fault p c w e h

theorem forLoop_fault {σ : Type} (body : Nat → σ → Except Fault σ)
    (hbody : ∀ p s e, body p s = Except.error e → e = Fault.outOfBounds) :
    ∀ (n p : Nat) (s : σ) (e : Fault),
      forLoop body n p s = Except.error e → e = Fault.outOfBounds := by
  intro n
  induction n with
  | zero => intro p s e h; simp [forLoop] at h
  | succ n ih =>
    intro p s e h
    simp only [forLoop] at h
    cases hb : body p s with
    | error e' =>
      rw [hb] at h
      simp only [Except.error.injEq] at h
      exact h ▸ hbody p s e' hb
    | ok v =>
      rw [hb] at h
      exact ih (p + 1) v e h

theorem tracks_outOfBounds (progress : Except Fault World) (e : Fault)
    (he : e = Fault.outOfBounds) (h : progress = Except.error e) :
    tracks (Except.error e) progress := by
  subst he
  exact h

theorem scrollLoop_tracks (bus : Transport) (text : List Nat) (displayWidth iter : Nat) :
    ∀ (fuel i : Nat) (w : World),
      tracks (scrollLoop bus text displayWidth iter fuel i w)
        (scrollProgress bus text displayWidth iter fuel i w) := by
  intro fuel
  induction fuel with
  | zero => intro i w; exact ⟨w, rfl⟩
  | succ fuel ih =>
    intro i w
    simp only [scrollLoop, scrollProgress]
    by_cases hi : i ≤ iter
    · rw [if_pos hi, if_pos hi]
      cases hm : moveCursor bus w.lcd.currRowWrite 0 w with
      | error e => exact tracks_outOfBounds _ e (moveCursor_fault bus _ _ w e hm) rfl
      | ok v =>
        simp only
        cases hf : forLoop (windowBody bus text i) displayWidth 0 v with
        | error e =>
          exact tracks_outOfBounds _ e
            (forLoop_fault _ (windowBody_fault bus text i) _ _ v e hf) rfl
        | ok u => exact ih _ _
    · rw [if_neg hi, if_neg hi]
      rfl

theorem tracks_self (r : Except Fault World)
    (h : ∀ e, r = Except.error e → e = Fault.outOfBounds) : tracks r r := by
  cases r with
  | ok v => rfl
  | error e => exact tracks_outOfBounds _ e (h e rfl) rfl

theorem print_fit_fault (fuel : Nat) (bus : Transport) (text : List Nat) (w : World)
    (hlen : text.length ≤ w.lcd.columns) (e : Fault)
    (h : print fuel bus text w = Except.error e) : e = Fault.outOfBounds := by
  unfold print at h
  simp only at h
  split_ifs at h with h1 h2
  · cases hc : forLoop (copyBody text) 16 0 w with
    | error e' =>
      rw [hc] at h
      simp only [Except.error.injEq] at h
      exact h ▸ forLoop_fault _ (copyBody_fault text) _ _ w e' hc
    | ok v => rw [hc] at h; simp at h
  · cases hc : forLoop (copyBody text) text.length 0 w with
    | error e' =>
      rw [hc] at h
      simp only [Except.error.injEq] at h
      exact h ▸ forLoop_fault _ (copyBody_fault text) _ _ w e' hc
    | ok v =>
      rw [hc] at h
      simp only at h
      cases hp : forLoop padBody (w.lcd.columns - text.length) text.length v with
      | error e' =>
        rw [hp] at h
        simp only [Except.error.injEq] at h
        exact h ▸ forLoop_fault _ (fun p s e he => writeBuffer_set_fault p 32 s e he) _ _ v e' hp
      | ok u => rw [hp] at h; simp at h
  · omega

theorem print_tracks (fuel : Nat) (bus : Transport) (text : List Nat) (w : World) :
    tracks (print fuel bus text w) (printProgress fuel bus text w) := by
  by_cases hlong : w.lcd.columns < text.length
  · unfold print printProgress
    simp only
    rw [if_neg (by omega), if_neg (by omega), if_pos hlong]
    exact scrollLoop_tracks bus text _ _ fuel 0 w
  · have hp : printProgress fuel bus text w = print fuel bus text w := by
      unfold printProgress
      simp only
      rw [if_neg hlong]
    rw [hp]
    exact tracks_self _ (print_fit_fault fuel bus text w (by omega))

theorem scrollProgress_sim (bus bus' : Transport) (text : List Nat)
    (displayWidth iter : Nat) :
    ∀ (fuel i : Nat) (w w' : World), settled w = settled w' →
      (scrollProgress bus text displayWidth iter fuel i w).map settled
        = (scrollProgress bus' text displayWidth iter fuel i w').map settled := by
  intro fuel
  induction fuel with
  | zero => intro i w w' h; simp only [scrollProgress, Except.map, h]
  | succ fuel ih =>
    intro i w w' h
    simp only [scrollProgress]
    split_ifs with hi
    · have hm := moveCursor_sim bus bus' w.lcd.currRowWrite 0 w w' h
      rw [← settled_currRowWrite h]
      cases h1 : moveCursor bus w.lcd.currRowWrite 0 w with
      | error e =>
        cases h2 : moveCursor bus' w.lcd.currRowWrite 0 w' with
        | error e' => rw [h1, h2] at hm; exact hm
        | ok v' => rw [h1, h2] at hm; simp [Except.map] at hm
      | ok v =>
        cases h2 : moveCursor bus' w.lcd.currRowWrite 0 w' with
        | error e' => rw [h1, h2] at hm; simp [Except.map] at hm
        | ok v' =>
          rw [h1, h2] at hm
          simp only [Except.map, Except.ok.injEq] at hm
          have hf := forLoop_sim (windowBody bus text i) (windowBody bus' text i)
            (fun j a b hab => windowBody_sim bus bus' text i j a b hab) displayWidth 0 v v' hm
          simp only
          cases h3 : forLoop (windowBody bus text i) displayWidth 0 v with
          | error e =>
            cases h4 : forLoop (windowBody bus' text i) displayWidth 0 v' with
            | error e' => rw [h3, h4] at hf; exact hf
            | ok u' => rw [h3, h4] at hf; simp [Except.map] at hf
          | ok u =>
            cases h4 : forLoop (windowBody bus' text i) displayWidth 0 v' with
            | error e' => rw [h3, h4] at hf; simp [Except.map] at hf
            | ok u' =>
              rw [h3, h4] at hf
              simp only [Except.map, Except.ok.injEq] at hf
              exact ih _ _ _ (sleep_ms_sim 500 u u' hf)
    · simp only [Except.map, h]

theorem printProgress_sim (fuel : Nat) (bus bus' : Transport) (text : List Nat)
    (w w' : World) (h : settled w = settled w') :
    (printProgress fuel bus text w).map settled
      = (printProgress fuel bus' text w').map settled := by
  unfold printProgress
  simp only
  rw [← settled_columns h]
  split_ifs with hlong
  · exact scrollProgress_sim bus bus' text _ _ fuel 0 w w' h
  · exact print_sim fuel bus bus' text w w' h

/-! ## The four writes of a nibble pair -/

/-- C15: for every nibble pair `(m, l)`, every transport and every state, the bus writes
and delays of `lcd_send_byte` are exactly four writes of one byte each to the configured
`hardware_address`, of `m`, `setEnableLow`, `l`, `setEnableLow` in this order, each
followed by `sleep_us(600)`; the count of bus writes grows by four, and so it does for
every framed command and character. -/
theorem lcd_send_byte_four_writes (bus : Transport) (m l : Nat) (w : World) :
    wire (lcd_send_byte bus m l w).trace
        = wire w.trace
          ++ [Event.i2c_write_blocking w.lcd.hardware_address [m] false,
              Event.sleep_us 600,
              Event.i2c_write_blocking w.lcd.hardware_address [setEnableLow] false,
              Event.sleep_us 600,
              Event.i2c_write_blocking w.lcd.hardware_address [l] false,
              Event.sleep_us 600,
              Event.i2c_write_blocking w.lcd.hardware_address [setEnableLow] false,
              Event.sleep_us 600]
    ∧ (lcd_send_byte bus m l w).tx = w.tx + 4
    ∧ (∀ data, (prepare_command bus data w).tx = w.tx + 4)
    ∧ (∀ data, (prepare_character bus data w).tx = w.tx + 4) :=
  ⟨lcd_send_byte_wire bus m l w, lcd_send_byte_tx bus m l w,
   fun data => prepare_command_tx bus data w, fun data => prepare_character_tx bus data w⟩

/-! ## Properties kept by every step -/

theorem forLoop_preserves {σ : Type} (P : σ → Prop) (body : Nat → σ → Except Fault σ)
    (hbody : ∀ p s s', body p s = Except.ok s' → P s → P s') :
    ∀ (n p : Nat) (s s' : σ), forLoop body n p s = Except.ok s' → P s → P s' := by
  intro n
  induction n with
  | zero =>
    intro p s s' h hs
    simp only [forLoop, Except.ok.injEq] at h
    exact h ▸ hs
  | succ n ih =>
    intro p s s' h hs
    simp only [forLoop] at h
    cases hb : body p s with
    | error e => rw [hb] at h; simp at h
    | ok v =>
      rw [hb] at h
      exact ih (p + 1) v s' h (hbody p s v hb hs)

theorem foldl_prepare_character_preserves (bus : Transport) (P : World → Prop)
    (hpc : ∀ c w, P w → P (prepare_character bus c w)) :
    ∀ (cs : List Nat) (w : World), P w →
      P (cs.foldl (fun w character => prepare_character bus (character % 256) w) w) := by
  intro cs
  induction cs with
  | nil => intro w hw; exact hw
  | cons c cs ih => intro w hw; exact ih _ (hpc _ w hw)

theorem flushBuffer_preserves (bus : Transport) (P : World → Prop)
    (hpc : ∀ c w, P w → P (prepare_character bus c w)) (w : World) (hw : P w) :
    P (flushBuffer bus w) :=
  foldl_prepare_character_preserves bus P hpc w.lcd.writeBuffer w hw

theorem copyBody_preserves (P : World → Prop)
    (hset : ∀ p c w w', writeBuffer_set p c w = Except.ok w' → P w → P w')
    (text : List Nat) (p : Nat) (w w' : World)
    (h : copyBody text p w = Except.ok w') (hw : P w) : P w' := by
  unfold copyBody at h
  cases hs : string_at text p with
  | error e => rw [hs] at h; simp at h
  | ok c => rw [hs] at h; exact hset p c w w' h hw

theorem windowBody_preserves (bus : Transport) (P : World → Prop)
    (hpc : ∀ c w, P w → P (prepare_character bus c w))
    (text : List Nat) (i j : Nat) (w w' : World)
    (h : windowBody bus text i j w = Except.ok w') (hw : P w) : P w' := by
  unfold windowBody at h
  cases hs : string_at text (i + j) with
  | error e => rw [hs] at h; simp at h
  | ok c =>
    rw [hs] at h
    simp only [Except.ok.injEq] at h
    exact h ▸ hpc _ w hw

theorem print_fit_preserves (fuel : Nat) (bus : Transport) (P : World → Prop)
    (hpc : ∀ c w, P w → P (prepare_character bus c w))
    (hset : ∀ p c w w', writeBuffer_set p c w = Except.ok w' → P w → P w')
    (text : List Nat) (w w' : World) (hlen : text.length ≤ w.lcd.columns)
    (h : print fuel bus text w = Except.ok w') (hw : P w) : P w' := by
  unfold print at h
  simp only at h
  split_ifs at h with h1 h2
  · cases hc : forLoop (copyBody text) 16 0 w with
    | error e => rw [hc] at h; simp at h
    | ok v =>
      rw [hc] at h
      simp only [Except.ok.injEq] at h
      exact h ▸ flushBuffer_preserves bus P hpc v
        (forLoop_preserves P _ (copyBody_preserves P hset text) 16 0 w v hc hw)
  · cases hc : forLoop (copyBody text) text.length 0 w with
    | error e => rw [hc] at h; simp at h
    | ok v =>
      rw [hc] at h
      simp only at h
      cases hp : forLoop padBody (w.lcd.columns - text.length) text.length v with
      | error e => rw [hp] at h; simp at h
      | ok u =>
        rw [hp] at h
        simp only [Except.ok.injEq] at h
        exact h ▸ flushBuffer_preserves bus P hpc u
          (forLoop_preserves P _ (fun p a b hab => hset p 32 a b hab) _ _ v u hp
            (forLoop_preserves P _ (copyBody_preserves P hset text) _ 0 w v hc hw))
  · omega

theorem scrollLoop_preserves (bus : Transport) (P : World → Prop)
    (hpc : ∀ c w, P w → P (prepare_character bus c w))
    (hmv : ∀ w w', moveCursor bus w.lcd.currRowWrite 0 w = Except.ok w' → P w → P w')
    (hsl : ∀ w, P w → P (sleep_ms 500 w))
    (text : List Nat) (displayWidth iter : Nat) :
    ∀ (fuel i : Nat) (w w' : World),
      scrollLoop bus text displayWidth iter fuel i w = Except.ok w' → P w → P w' := by
  intro fuel
  induction fuel with
  | zero => intro i w w' h; simp [scrollLoop] at h
  | succ fuel ih =>
    intro i w w' h hw
    simp only [scrollLoop] at h
    split_ifs at h with hi
    · cases hm : moveCursor bus w.lcd.currRowWrite 0 w with
      | error e => rw [hm] at h; simp at h
      | ok v =>
        rw [hm] at h
        simp only at h
        cases hf : forLoop (windowBody bus text i) displayWidth 0 v with
        | error e => rw [hf] at h; simp at h
        | ok u =>
          rw [hf] at h
          simp only at h
          exact ih _ _ _ h (hsl u
            (forLoop_preserves P _ (windowBody_preserves bus P hpc text i) _ 0 v u hf
              (hmv w v hm hw)))
    · simp only [Except.ok.injEq] at h
      exact h ▸ hw

theorem print_preserves (fuel : Nat) (bus : Transport) (P : World → Prop)
    (hpc : ∀ c w, P w → P (prepare_character bus c w))
    (hset : ∀ p c w w', writeBuffer_set p c w = Except.ok w' → P w → P w')
    (hmv : ∀ w w', moveCursor bus w.lcd.currRowWrite 0 w = Except.ok w' → P w → P w')
    (hsl : ∀ w, P w → P (sleep_ms 500 w))
    (text : List Nat) (w w' : World)
    (h : print fuel bus text w = Except.ok w') (hw : P w) : P w' := by
  by_cases hlen : text.length ≤ w.lcd.columns
  · exact print_fit_preserves fuel bus P hpc hset text w w' hlen h hw
  · unfold print at h
    simp only at h
    rw [if_neg (by omega), if_neg (by omega)] at h
    exact scrollLoop_preserves bus P hpc hmv hsl text _ _ fuel 0 w w' h hw

/-! ## The control lines of every byte on the bus -/

set_option maxRecDepth 100000 in
theorem controlLines_command_byte (c : Nat) (hc : c < 256) :
    controlLines ((c &&& 0xF0) ||| 0x08 ||| 0x04) := by
  revert c
  decide

set_option maxRecDepth 100000 in
theorem controlLines_character_byte (c : Nat) (hc : c < 256) :
    controlLines ((c &&& 0xF0) ||| 0x08 ||| 0x04 ||| 0x01) := by
  revert c
  decide

theorem controlLines_setEnableLow : controlLines setEnableLow := by
  decide

theorem controlLines_commandNibbles (data : Nat) :
    controlLines (commandNibbles data).1 ∧ controlLines (commandNibbles data).2 := by
  rw [commandNibbles_eq]
  constructor
  · simp only
    rw [and_F0_mod data]
    exact controlLines_command_byte _ (Nat.mod_lt _ (by norm_num))
  · simp only
    rw [and_F0_mod (data <<< 4)]
    exact controlLines_command_byte _ (Nat.mod_lt _ (by norm_num))

theorem controlLines_characterNibbles (data : Nat) :
    controlLines (characterNibbles data).1 ∧ controlLines (characterNibbles data).2 := by
  rw [characterNibbles_eq]
  constructor
  · simp only
    rw [and_F0_mod data]
    exact controlLines_character_byte _ (Nat.mod_lt _ (by norm_num))
  · simp only
    rw [and_F0_mod (data <<< 4)]
    exact controlLines_character_byte _ (Nat.mod_lt _ (by norm_num))

theorem wroteOnly_refl (good : Nat → Prop) (w : World) : wroteOnly good w w :=
  ⟨[], by simp, by simp⟩

theorem wroteOnly_of_busBytes (good : Nat → Prop) (w0 w w' : World) (bytes : List Nat)
    (h : busBytes w'.trace = busBytes w.trace ++ bytes) (hgood : ∀ b ∈ bytes, good b)
    (hw : wroteOnly good w0 w) : wroteOnly good w0 w' := by
  obtain ⟨old, hold, hall⟩ := hw
  refine ⟨old ++ bytes, by rw [h, hold, List.append_assoc], ?_⟩
  intro b hb
  rcases List.mem_append.mp hb with hb | hb
  · exact hall b hb
  · exact hgood b hb

theorem wroteOnly_same_trace (good : Nat → Prop) (w0 w w' : World)
    (h : w'.trace = w.trace) (hw : wroteOnly good w0 w) : wroteOnly good w0 w' :=
  wroteOnly_of_busBytes good w0 w w' [] (by rw [h]; simp) (by simp) hw

theorem wroteOnly_lcd_send_byte (bus : Transport) (m l : Nat) (w0 w : World)
    (hm : controlLines m) (hl : controlLines l) (hw : wroteOnly controlLines w0 w) :
    wroteOnly controlLines w0 (lcd_send_byte bus m l w) := by
  refine wroteOnly_of_busBytes controlLines w0 w _ _ (lcd_send_byte_busBytes bus m l w) ?_ hw
  intro b hb
  simp only [List.mem_cons, List.mem_singleton, List.not_mem_nil, or_false] at hb
  rcases hb with rfl | rfl | rfl | rfl
  · exact hm
  · exact controlLines_setEnableLow
  · exact hl
  · exact controlLines_setEnableLow

theorem wroteOnly_prepare_command (bus : Transport) (data : Nat) (w0 w : World)
    (hw : wroteOnly controlLines w0 w) :
    wroteOnly controlLines w0 (prepare_command bus data w) :=
  wroteOnly_lcd_send_byte bus _ _ w0 w (controlLines_commandNibbles data).1
    (controlLines_commandNibbles data).2 hw

theorem wroteOnly_prepare_character (bus : Transport) (data : Nat) (w0 w : World)
    (hw : wroteOnly controlLines w0 w) :
    wroteOnly controlLines w0 (prepare_character bus data w) :=
  wroteOnly_lcd_send_byte bus _ _ w0 w (controlLines_characterNibbles data).1
    (controlLines_characterNibbles data).2 hw

theorem wroteOnly_emit (good : Nat → Prop) (e : Event) (w0 w : World)
    (he : busBytes [e] = []) (hw : wroteOnly good w0 w) : wroteOnly good w0 (emit e w) := by
  refine wroteOnly_of_busBytes good w0 w _ [] ?_ (by simp) hw
  simp only [emit, busBytes_append, he]

theorem wroteOnly_writeBuffer_set (good : Nat → Prop) (w0 : World) (p c : Nat) (w w' : World)
    (h : writeBuffer_set p c w = Except.ok w') (hw : wroteOnly good w0 w) :
    wroteOnly good w0 w' := by
  unfold writeBuffer_set at h
  split_ifs at h
  simp only [Except.ok.injEq] at h
  exact wroteOnly_same_trace good w0 w w' (by rw [← h]) hw

theorem wroteOnly_moveCursor (bus : Transport) (row column : Nat) (w0 w w' : World)
    (h : moveCursor bus row column w = Except.ok w') (hw : wroteOnly controlLines w0 w) :
    wroteOnly controlLines w0 w' := by
  unfold moveCursor at h
  split_ifs at h with hc
  · simp only [Except.ok.injEq] at h
    exact h ▸ hw
  · cases hb : displayMemoryIndex.get? row with
    | none => rw [hb] at h; simp at h
    | some base =>
      rw [hb] at h
      simp only [Except.ok.injEq] at h
      rw [← h]
      exact wroteOnly_prepare_command bus _ w0 _
        (wroteOnly_same_trace controlLines w0 w _ rfl hw)

theorem wroteOnly_printf (good : Nat → Prop) (fmt : String) (args : List Nat) (w0 w : World)
    (hw : wroteOnly good w0 w) : wroteOnly good w0 (printf fmt args w) :=
  wroteOnly_emit good _ w0 w rfl hw

theorem wroteOnly_sleep_ms (good : Nat → Prop) (ms : Nat) (w0 w : World)
    (hw : wroteOnly good w0 w) : wroteOnly good w0 (sleep_ms ms w) :=
  wroteOnly_emit good _ w0 w rfl hw

theorem wroteOnly_sleep_us (good : Nat → Prop) (us : Nat) (w0 w : World)
    (hw : wroteOnly good w0 w) : wroteOnly good w0 (sleep_us us w) :=
  wroteOnly_emit good _ w0 w rfl hw

theorem wroteOnly_init_display (bus : Transport) (w0 w : World)
    (hw : wroteOnly controlLines w0 w) : wroteOnly controlLines w0 (init_display bus w) := by
  simp only [init_display]
  refine wroteOnly_printf _ _ _ _ _ (wroteOnly_prepare_command _ _ _ _ ?_)
  refine wroteOnly_printf _ _ _ _ _ (wroteOnly_prepare_command _ _ _ _ ?_)
  refine wroteOnly_printf _ _ _ _ _ (wroteOnly_prepare_command _ _ _ _ ?_)
  refine wroteOnly_sleep_ms _ _ _ _ ?_
  refine wroteOnly_printf _ _ _ _ _ (wroteOnly_prepare_command _ _ _ _ ?_)
  refine wroteOnly_printf _ _ _ _ _ (wroteOnly_prepare_command _ _ _ _ ?_)
  refine wroteOnly_printf _ _ _ _ _ (wroteOnly_prepare_command _ _ _ _ ?_)
  refine wroteOnly_printf _ _ _ _ _ (wroteOnly_prepare_command _ _ _ _ ?_)
  refine wroteOnly_sleep_us _ _ _ _ (wroteOnly_prepare_command _ _ _ _ ?_)
  refine wroteOnly_sleep_ms _ _ _ _ (wroteOnly_prepare_command _ _ _ _ ?_)
  refine wroteOnly_sleep_ms _ _ _ _ (wroteOnly_prepare_command _ _ _ _ ?_)
  exact wroteOnly_printf _ _ _ _ _ hw

theorem wroteOnly_print (fuel : Nat) (bus : Transport) (text : List Nat) (w0 w w' : World)
    (h : print fuel bus text w = Except.ok w') (hw : wroteOnly controlLines w0 w) :
    wroteOnly controlLines w0 w' :=
  print_preserves fuel bus (wroteOnly controlLines w0)
    (fun c v hv => wroteOnly_prepare_character bus c w0 v hv)
    (fun p c a b hab ha => wroteOnly_writeBuffer_set controlLines w0 p c a b hab ha)
    (fun a b hab ha => wroteOnly_moveCursor bus _ _ w0 a b hab ha)
    (fun v hv => wroteOnly_sleep_ms controlLines 500 w0 v hv)
    text w w' h hw

theorem onReturn_intro (P : World → Prop) (r : Except Fault World)
    (h : ∀ w', r = Except.ok w' → P w') : onReturn P r := by
  cases r with
  | error e => exact True.intro
  | ok v => exact h v rfl

theorem scrollProgress_preserves (bus : Transport) (P : World → Prop)
    (hpc : ∀ c w, P w → P (prepare_character bus c w))
    (hmv : ∀ w w', moveCursor bus w.lcd.currRowWrite 0 w = Except.ok w' → P w → P w')
    (hsl : ∀ w, P w → P (sleep_ms 500 w))
    (text : List Nat) (displayWidth iter : Nat) :
    ∀ (fuel i : Nat) (w w' : World),
      scrollProgress bus text displayWidth iter fuel i w = Except.ok w' → P w → P w' := by
  intro fuel
  induction fuel with
  | zero =>
    intro i w w' h hw
    simp only [scrollProgress, Except.ok.injEq] at h
    exact h ▸ hw
  | succ fuel ih =>
    intro i w w' h hw
    simp only [scrollProgress] at h
    split_ifs at h with hi
    · cases hm : moveCursor bus w.lcd.currRowWrite 0 w with
      | error e => rw [hm] at h; simp at h
      | ok v =>
        rw [hm] at h
        simp only at h
        cases hf : forLoop (windowBody bus text i) displayWidth 0 v with
        | error e => rw [hf] at h; simp at h
        | ok u =>
          rw [hf] at h
          simp only at h
          exact ih _ _ _ h (hsl u
            (forLoop_preserves P _ (windowBody_preserves bus P hpc text i) _ 0 v u hf
              (hmv w v hm hw)))
    · simp only [Except.ok.injEq] at h
      exact h ▸ hw

theorem printProgress_preserves (fuel : Nat) (bus : Transport) (P : World → Prop)
    (hpc : ∀ c w, P w → P (prepare_character bus c w))
    (hset : ∀ p c w w', writeBuffer_set p c w = Except.ok w' → P w → P w')
    (hmv : ∀ w w', moveCursor bus w.lcd.currRowWrite 0 w = Except.ok w' → P w → P w')
    (hsl : ∀ w, P w → P (sleep_ms 500 w))
    (text : List Nat) (w w' : World)
    (h : printProgress fuel bus text w = Except.ok w') (hw : P w) : P w' := by
  unfold printProgress at h
  simp only at h
  split_ifs at h with hlong
  · exact scrollProgress_preserves bus P hpc hmv hsl text _ _ fuel 0 w w' h hw
  · exact print_preserves fuel bus P hpc hset hmv hsl text w w' h hw

theorem wroteOnly_printProgress (fuel : Nat) (bus : Transport) (text : List Nat)
    (w0 w w' : World) (h : printProgress fuel bus text w = Except.ok w')
    (hw : wroteOnly controlLines w0 w) : wroteOnly controlLines w0 w' :=
  printProgress_preserves fuel bus (wroteOnly controlLines w0)
    (fun c v hv => wroteOnly_prepare_character bus c w0 v hv)
    (fun p c a b hab ha => wroteOnly_writeBuffer_set controlLines w0 p c a b hab ha)
    (fun a b hab ha => wroteOnly_moveCursor bus _ _ w0 a b hab ha)
    (fun v hv => wroteOnly_sleep_ms controlLines 500 w0 v hv)
    text w w' h hw

/-! ## The cursor after a text that fits -/

theorem print_full (fuel : Nat) (bus : Transport) (text : List Nat) (w : World)
    (hlen : text.length = w.lcd.columns) (h15 : 15 ≤ text.length) :
    print fuel bus text w
      = Except.ok (flushBuffer bus { w with lcd := { w.lcd with
          writeBuffer := paint (fun k => text.getD k 0) 16 0 w.lcd.writeBuffer } }) := by
  unfold print
  simp only
  rw [if_pos hlen, copyLoop_paint text 16 0 w (by omega) (by omega)]

theorem writeBuffer_set_cursor (p c : Nat) (w w' : World)
    (h : writeBuffer_set p c w = Except.ok w') :
    w'.lcd.currRowWrite = w.lcd.currRowWrite ∧ w'.lcd.currColumnWrite = w.lcd.currColumnWrite
      ∧ w'.lcd.rows = w.lcd.rows ∧ w'.lcd.columns = w.lcd.columns := by
  unfold writeBuffer_set at h
  split_ifs at h
  simp only [Except.ok.injEq] at h
  rw [← h]
  exact ⟨rfl, rfl, rfl, rfl⟩

theorem prepare_character_cursor (bus : Transport) (c : Nat) (w : World) :
    (prepare_character bus c w).lcd.currRowWrite = w.lcd.currRowWrite
      ∧ (prepare_character bus c w).lcd.currColumnWrite = w.lcd.currColumnWrite
      ∧ (prepare_character bus c w).lcd.rows = w.lcd.rows
      ∧ (prepare_character bus c w).lcd.columns = w.lcd.columns := by
  rw [prepare_character_lcd]
  exact ⟨rfl, rfl, rfl, rfl⟩

theorem prepare_command_cursor (bus : Transport) (c : Nat) (w : World) :
    (prepare_command bus c w).lcd.currRowWrite = w.lcd.currRowWrite
      ∧ (prepare_command bus c w).lcd.currColumnWrite = w.lcd.currColumnWrite
      ∧ (prepare_command bus c w).lcd.rows = w.lcd.rows
      ∧ (prepare_command bus c w).lcd.columns = w.lcd.columns := by
  rw [prepare_command_lcd]
  exact ⟨rfl, rfl, rfl, rfl⟩

/-- C13: for every text no longer than the column count, every state, transport and fuel,
a returning `print` leaves `currRowWrite` and `currColumnWrite` as they were; and `print`
does return when the text is shorter than a width of at most 40, or has the length of the
width and at least 15 characters (otherwise an index of the copy loops is out of range). -/
theorem print_keeps_cursor (fuel : Nat) (bus : Transport) (text : List Nat) (w : World)
    (hlen : text.length ≤ w.lcd.columns) :
    onReturn (fun w' => w'.lcd.currRowWrite = w.lcd.currRowWrite
        ∧ w'.lcd.currColumnWrite = w.lcd.currColumnWrite) (print fuel bus text w)
    ∧ ((text.length < w.lcd.columns ∧ w.lcd.columns ≤ 40)
        ∨ (text.length = w.lcd.columns ∧ 15 ≤ text.length) →
        ∃ w', print fuel bus text w = Except.ok w') := by
  constructor
  · refine onReturn_intro _ _ (fun w' h => ?_)
    refine print_fit_preserves fuel bus
      (fun v => v.lcd.currRowWrite = w.lcd.currRowWrite
        ∧ v.lcd.currColumnWrite = w.lcd.currColumnWrite) ?_ ?_ text w w' hlen h ⟨rfl, rfl⟩
    · intro c v hv
      obtain ⟨h1, h2, _, _⟩ := prepare_character_cursor bus c v
      exact ⟨h1.trans hv.1, h2.trans hv.2⟩
    · intro p c a b hab ha
      obtain ⟨h1, h2, _, _⟩ := writeBuffer_set_cursor p c a b hab
      exact ⟨h1.trans ha.1, h2.trans ha.2⟩
  · intro hcase
    rcases hcase with ⟨h1, h2⟩ | ⟨h1, h2⟩
    · exact ⟨_, print_short fuel bus text w h1 h2⟩
    · exact ⟨_, print_full fuel bus text w h1 h2⟩

/-- Witness of `print_keeps_cursor`: `print("Hi")` on the 2x16 display returns with the
cursor still at row 0, column 0. -/
theorem print_keeps_cursor_witness :
    (chars "Hi").length ≤ (display 2 16).lcd.columns
    ∧ ∃ w', print 0 allSent (chars "Hi") (display 2 16) = Except.ok w'
        ∧ w'.lcd.currRowWrite = 0 ∧ w'.lcd.currColumnWrite = 0 := by
  refine ⟨by decide, ?_⟩
  obtain ⟨h1, h2⟩ := print_keeps_cursor 0 allSent (chars "Hi") (display 2 16) (by decide)
  obtain ⟨w', hw'⟩ := h2 (Or.inl ⟨by decide, by decide⟩)
  rw [hw'] at h1
  exact ⟨w', hw', h1⟩

/-! ## One pass of the scroll loop -/

theorem windowLoop_fold (bus : Transport) (text : List Nat) (i : Nat) :
    ∀ (n j : Nat) (w : World), i + j + n ≤ text.length →
      forLoop (windowBody bus text i) n j w
        = Except.ok (((text.drop (i + j)).take n).foldl
            (fun w character => prepare_character bus (character % 256) w) w) := by
  intro n
  induction n with
  | zero => intro j w _; simp [forLoop]
  | succ n ih =>
    intro j w h
    have hlt : i + j < text.length := by omega
    simp only [forLoop, windowBody, string_at_ok text (i + j) (by omega)]
    rw [ih (j + 1) _ (by omega), List.drop_eq_getElem_cons hlt, List.take_succ_cons,
      List.foldl_cons, List.getD_eq_getElem text 0 hlt]
    rfl

theorem displayMemoryIndex_getD (row : Nat) (h : row < 4) :
    displayMemoryIndex.get? row = some (displayMemoryIndex.getD row 0) := by
  interval_cases row <;> rfl

theorem scroll_step (bus : Transport) (text : List Nat) (displayWidth iter fuel i : Nat)
    (w : World) (hi : i ≤ iter) (hrow : w.lcd.currRowWrite < w.lcd.rows)
    (hcol : 0 < w.lcd.columns) (h4 : w.lcd.currRowWrite < 4)
    (hread : i + displayWidth ≤ text.length) :
    scrollLoop bus text displayWidth iter (fuel + 1) i w
      = scrollLoop bus text displayWidth iter fuel ((i + 1) % 256)
          (scrollWindow bus text displayWidth i w) := by
  simp only [scrollLoop]
  rw [if_pos hi, moveCursor_accepted bus _ 0 _ w hrow hcol (displayMemoryIndex_getD _ h4)]
  simp only
  rw [windowLoop_fold bus text i displayWidth 0 _ (by omega)]
  rfl

theorem scrollWindow_lcd (bus : Transport) (text : List Nat) (displayWidth i : Nat)
    (w : World) :
    ∃ t, (scrollWindow bus text displayWidth i w).lcd
      = { w.lcd with currColumnWrite := 0, TxBytesSent := t } := by
  unfold scrollWindow
  obtain ⟨t, ht⟩ := foldl_prepare_character_lcd bus ((text.drop i).take displayWidth)
    (prepare_command bus
      ((Commands.Set_DDRAM_Address
          ||| (displayMemoryIndex.getD w.lcd.currRowWrite 0 + 0)) % 256)
      { w with lcd := { w.lcd with currRowWrite := w.lcd.currRowWrite,
                                   currColumnWrite := 0 } })
  refine ⟨t, ?_⟩
  rw [sleep_ms_lcd, ht, prepare_command_lcd]

theorem scrollWindow_wire (bus : Transport) (text : List Nat) (displayWidth i : Nat)
    (w : World) :
    wire (scrollWindow bus text displayWidth i w).trace
      = wire w.trace
        ++ windowWire w.lcd.hardware_address
            ((0x80 ||| (displayMemoryIndex.getD w.lcd.currRowWrite 0 + 0)) % 256)
            ((text.drop i).take displayWidth) := by
  unfold scrollWindow windowWire
  rw [sleep_ms_wire, foldl_prepare_character_wire, prepare_command_wire, prepare_command_lcd]
  simp only [List.append_assoc, Commands.Set_DDRAM_Address]

theorem scroll_endless (bus : Transport) (text : List Nat) (displayWidth : Nat)
    (hread : 255 + displayWidth ≤ text.length) :
    ∀ (fuel i : Nat) (w : World), i ≤ 255 → w.lcd.currRowWrite < w.lcd.rows →
      0 < w.lcd.columns → w.lcd.currRowWrite < 4 →
      scrollLoop bus text displayWidth 255 fuel i w = Except.error Fault.outOfFuel := by
  intro fuel
  induction fuel with
  | zero => intro i w _ _ _ _; rfl
  | succ fuel ih =>
    intro i w hi hrow hcol h4
    rw [scroll_step bus text displayWidth 255 fuel i w hi hrow hcol h4 (by omega)]
    obtain ⟨t, ht⟩ := scrollWindow_lcd bus text displayWidth i w
    refine ih _ _ (by omega) ?_ ?_ ?_
    · rw [ht]; exact hrow
    · rw [ht]; exact hcol
    · rw [ht]; exact h4

theorem print_endless (fuel : Nat) (bus : Transport) (text : List Nat) (w : World)
    (hlen : text.length = w.lcd.columns + 255) (hrow : w.lcd.currRowWrite < w.lcd.rows)
    (hcol : 0 < w.lcd.columns) (h4 : w.lcd.currRowWrite < 4) :
    print fuel bus text w = Except.error Fault.outOfFuel := by
  unfold print
  simp only
  rw [if_neg (by omega), if_neg (by omega)]
  have hiter : (text.length - w.lcd.columns) % 256 = 255 := by
    rw [hlen]
    simp
  rw [hiter]
  exact scroll_endless bus text _ (by omega) fuel 0 w (by omega) hrow hcol h4

theorem scroll_run (bus : Transport) (text : List Nat) (displayWidth iter : Nat)
    (hiter : iter ≤ 254) (hread : iter + displayWidth ≤ text.length) :
    ∀ (count i fuel : Nat) (w : World), i + count = iter + 1 → count < fuel →
      w.lcd.currRowWrite < w.lcd.rows → 0 < w.lcd.columns → w.lcd.currRowWrite < 4 →
      ∃ w', scrollLoop bus text displayWidth iter fuel i w = Except.ok w'
        ∧ wire w'.trace
            = wire w.trace
              ++ scrollWire w.lcd.hardware_address
                  ((0x80 ||| (displayMemoryIndex.getD w.lcd.currRowWrite 0 + 0)) % 256)
                  text displayWidth i count
        ∧ w'.lcd.currRowWrite = w.lcd.currRowWrite
        ∧ w'.lcd.rows = w.lcd.rows ∧ w'.lcd.columns = w.lcd.columns
        ∧ w'.lcd.hardware_address = w.lcd.hardware_address
        ∧ w'.lcd.writeBuffer = w.lcd.writeBuffer := by
  intro count
  induction count with
  | zero =>
    intro i fuel w hi hfuel _ _ _
    obtain ⟨f, rfl⟩ : ∃ f, fuel = f + 1 := ⟨fuel - 1, by omega⟩
    refine ⟨w, ?_, by simp [scrollWire], rfl, rfl, rfl, rfl, rfl⟩
    simp only [scrollLoop]
    rw [if_neg (by omega)]
  | succ count ih =>
    intro i fuel w hi hfuel hrow hcol h4
    obtain ⟨f, rfl⟩ : ∃ f, fuel = f + 1 := ⟨fuel - 1, by omega⟩
    rw [scroll_step bus text displayWidth iter f i w (by omega) hrow hcol h4 (by omega),
      Nat.mod_eq_of_lt (by omega)]
    obtain ⟨t, ht⟩ := scrollWindow_lcd bus text displayWidth i w
    obtain ⟨w', hw', hwire, h1, h2, h3, h5, h6⟩ :=
      ih (i + 1) f (scrollWindow bus text displayWidth i w) (by omega) (by omega)
        (by rw [ht]; exact hrow) (by rw [ht]; exact hcol) (by rw [ht]; exact h4)
    refine ⟨w', hw', ?_, ?_, ?_, ?_, ?_, ?_⟩
    · rw [hwire, scrollWindow_wire, ht]
      simp only [scrollWire, List.append_assoc]
    · rw [h1, ht]
    · rw [h2, ht]
    · rw [h3, ht]
    · rw [h5, ht]
    · rw [h6, ht]

theorem print_scroll (fuel : Nat) (bus : Transport) (text : List Nat) (w : World)
    (hlong : w.lcd.columns < text.length) (hiter : text.length - w.lcd.columns ≤ 254)
    (hfuel : text.length - w.lcd.columns + 1 < fuel)
    (hrow : w.lcd.currRowWrite < w.lcd.rows) (hcol : 0 < w.lcd.columns)
    (h4 : w.lcd.currRowWrite < 4) :
    ∃ w', print fuel bus text w = Except.ok w'
      ∧ wire w'.trace
          = wire w.trace
            ++ scrollWire w.lcd.hardware_address
                ((0x80 ||| (displayMemoryIndex.getD w.lcd.currRowWrite 0 + 0)) % 256)
                text w.lcd.columns 0 (text.length - w.lcd.columns + 1)
      ∧ w'.lcd.currRowWrite = w.lcd.currRowWrite
      ∧ w'.lcd.rows = w.lcd.rows ∧ w'.lcd.columns = w.lcd.columns
      ∧ w'.lcd.hardware_address = w.lcd.hardware_address
      ∧ w'.lcd.writeBuffer = w.lcd.writeBuffer := by
  unfold print
  simp only
  rw [if_neg (by omega), if_neg (by omega), Nat.mod_eq_of_lt (by omega)]
  exact scroll_run bus text _ _ hiter (by omega) _ 0 fuel w (by omega) hfuel hrow hcol h4

/-! ## The constructors -/

theorem getD_after_first (p : Nat) (hp : 1 ≤ p) :
    (32 :: List.replicate 39 0).getD p 0 = 0 := by
  obtain ⟨q, rfl⟩ : ∃ q, p = q + 1 := ⟨p - 1, by omega⟩
  rw [List.getD_cons_succ, List.getD_eq_getElem?_getD, List.getElem?_replicate]
  split_ifs <;> rfl

theorem fill_after_first :
    ∀ (n p : Nat) (v : World), 1 ≤ p → v.lcd.writeBuffer = 32 :: List.replicate 39 0 →
      forLoop fillBody n p v = Except.ok v := by
  intro n
  induction n with
  | zero => intro p v _ _; rfl
  | succ n ih =>
    intro p v hp hv
    have hstep : fillBody p v = Except.ok v := by
      unfold fillBody
      simp only [hv, getD_after_first p hp]
      rw [writeBuffer_set_ok 0 32 v (by omega), hv]
      simp only [List.set_cons_zero]
      rw [← hv]
    simp only [forLoop, hstep]
    exact ih (p + 1) v (by omega) hv

theorem fill_from_zero (n : Nat) (w : World)
    (h : w.lcd.writeBuffer = List.replicate 40 0) :
    forLoop fillBody (n + 1) 0 w
      = Except.ok { w with lcd := { w.lcd with
          writeBuffer := 32 :: List.replicate 39 0 } } := by
  have hstep : fillBody 0 w
      = Except.ok { w with lcd := { w.lcd with
          writeBuffer := 32 :: List.replicate 39 0 } } := by
    unfold fillBody
    simp only [h]
    rw [show (List.replicate 40 0).getD 0 0 = 0 from rfl,
      writeBuffer_set_ok 0 32 w (by omega), h]
    rfl
  simp only [forLoop, hstep]
  exact fill_after_first n 1 _ (by omega) rfl

theorem fill_zero (w : World) (h : w.lcd.writeBuffer = List.replicate 40 0) :
    forLoop fillBody writeBufferCapacity 0 w
      = Except.ok { w with lcd := { w.lcd with
          writeBuffer := 32 :: List.replicate 39 0 } } :=
  fill_from_zero 39 w h

theorem init_display_lcd (bus : Transport) (w : World) :
    ∃ t, (init_display bus w).lcd = { w.lcd with TxBytesSent := t } := by
  simp only [init_display, prepare_command_lcd, printf_lcd, sleep_ms_lcd, sleep_us_lcd]
  exact ⟨_, rfl⟩

theorem constructorBody_ok (bus : Transport) (w : World)
    (h : w.lcd.writeBuffer = List.replicate 40 0) :
    ∃ w', constructorBody bus w = Except.ok w'
      ∧ ∃ t, w'.lcd = { w.lcd with writeBuffer := 32 :: List.replicate 39 0,
                                   TxBytesSent := t } := by
  have h' : (constructorSetup w).lcd.writeBuffer = List.replicate 40 0 := h
  unfold constructorBody
  rw [fill_zero (constructorSetup w) h']
  simp only
  obtain ⟨t, ht⟩ := init_display_lcd bus
    { constructorSetup w with lcd := { (constructorSetup w).lcd with
        writeBuffer := 32 :: List.replicate 39 0 } }
  exact ⟨_, rfl, t, ht⟩

/-- C17 on the code: after either constructor, for every transport and all arguments, only
element 0 of the write buffer holds a space; the other thirty-nine elements are still the
zero bytes of the initialiser `writeBuffer[40] = {}`.  The loop indexes the buffer with
the value of each element, which is 0. -/
theorem constructor_fills_first_element_only (bus : Transport)
    (SDA SCL hardware_address display_rows display_columns : Nat) :
    (DisplayControl.DisplayControl bus SDA SCL hardware_address display_rows
        display_columns).map (fun w => w.lcd.writeBuffer)
      = Except.ok (32 :: List.replicate 39 0)
    ∧ (DisplayControl.DisplayControl_default bus).map (fun w => w.lcd.writeBuffer)
      = Except.ok (32 :: List.replicate 39 0)
    ∧ (32 :: List.replicate 39 0 : List Nat) ≠ List.replicate 40 32 := by
  refine ⟨?_, ?_, by decide⟩
  · obtain ⟨w', hw', t, ht⟩ := constructorBody_ok bus
      { lcd := { SDA := SDA, SCL := SCL, hardware_address := hardware_address,
                 rows := display_rows, columns := display_columns } } rfl
    unfold DisplayControl.DisplayControl
    rw [hw']
    simp only [Except.map, ht]
  · obtain ⟨w', hw', t, ht⟩ := constructorBody_ok bus { lcd := {} } rfl
    unfold DisplayControl.DisplayControl_default
    rw [hw']
    simp only [Except.map, ht]

set_option maxRecDepth 1000000 in
/-- C12 at a failing input: the constructor called with `display_rows = 5` stores five
rows; `moveCursor(4, 0)` is then accepted and reads `displayMemoryIndex[4]`, outside the
four entries of the table. -/
theorem constructor_keeps_five_rows :
    (DisplayControl.DisplayControl allSent 4 5 0x27 5 16).map (fun w => w.lcd.rows)
      = Except.ok 5
    ∧ displayMemoryIndex.length = 4
    ∧ (DisplayControl.DisplayControl allSent 4 5 0x27 5 16).bind (moveCursor allSent 4 0)
      = Except.error Fault.outOfBounds := by
  decide

set_option maxRecDepth 1000000 in
/-- C20 at a failing input: on a display constructed with eight columns, `print` of the
eight characters `ABCDEFGH` takes the branch `strSize == displayWidth`, whose loop reads
`text[0]` to `text[15]`: index 8 is the length of the text and index 9 lies beyond the
terminator. -/
theorem print_reads_beyond_text :
    (chars "ABCDEFGH").length = 8
    ∧ string_at (chars "ABCDEFGH") 9 = Except.error Fault.outOfBounds
    ∧ (DisplayControl.DisplayControl allSent 4 5 0x27 2 8).bind
        (print 0 allSent (chars "ABCDEFGH"))
      = Except.error Fault.outOfBounds := by
  decide

/-- C11 at a failing input: on the 2x16 display, `print` of a text of 271 characters never
returns: for every fuel and every transport the scroll loop is still running when the
fuel is used up, because `iter = (271 - 16) % 256 = 255` and `i <= 255` holds for every
eight-bit `i`. -/
theorem print_never_returns (fuel : Nat) (bus : Transport) :
    print fuel bus (List.replicate 271 65) (display 2 16) = Except.error Fault.outOfFuel
    ∧ (271 - 16) % 256 = 255 := by
  refine ⟨?_, by decide⟩
  exact print_endless fuel bus _ (display 2 16) (by rw [List.length_replicate]; rfl)
    (by decide) (by decide) (by decide)

/-! ## The scroll example of the specification -/

theorem scrollWindows_append (a b : List Event) :
    scrollWindows (a ++ b) = scrollWindows a + scrollWindows b := by
  induction a with
  | nil => simp [scrollWindows]
  | cons e es ih => cases e <;> simp [scrollWindows, ih, Nat.add_assoc]

theorem scrollWindows_nibblePairWire (addr m l : Nat) :
    scrollWindows (nibblePairWire addr m l) = 0 := rfl

theorem scrollWindows_characters (addr : Nat) (cs : List Nat) :
    scrollWindows (cs.flatMap (fun c => characterWire addr (c % 256))) = 0 := by
  induction cs with
  | nil => rfl
  | cons c cs ih =>
    rw [List.flatMap_cons, scrollWindows_append, ih]
    rfl

theorem scrollWindows_windowWire (addr cursor : Nat) (window : List Nat) :
    scrollWindows (windowWire addr cursor window) = 1 := by
  unfold windowWire
  rw [scrollWindows_append, scrollWindows_append, scrollWindows_characters]
  rfl

theorem scrollWindows_scrollWire (addr cursor : Nat) (text : List Nat) (displayWidth : Nat) :
    ∀ (count first : Nat),
      scrollWindows (scrollWire addr cursor text displayWidth first count) = count := by
  intro count
  induction count with
  | zero => intro first; rfl
  | succ count ih =>
    intro first
    simp only [scrollWire]
    rw [scrollWindows_append, scrollWindows_windowWire, ih]
    omega

/-- C14, as the claim states it, fails: the text `This message is definitely too long` has
35 characters, not 36, and `print` shows it on the 2x16 display in 20 scroll windows, not
21. -/
theorem twenty_scroll_windows_not_twenty_one :
    (chars "This message is definitely too long").length = 35
    ∧ (print 21 allSent (chars "This message is definitely too long") (display 2 16)).map
        (fun w => scrollWindows (wire w.trace))
      = Except.ok 20 := by
  refine ⟨by decide, ?_⟩
  obtain ⟨w', hw', hwire, _⟩ :=
    print_scroll 21 allSent (chars "This message is definitely too long") (display 2 16)
      (by decide) (by decide) (by decide) (by decide) (by decide) (by decide)
  rw [hw']
  simp only [Except.map, hwire, scrollWindows_append, scrollWindows_scrollWire]
  rfl

/-- C14, amended: on every driver with 2 rows and 16 columns whose stored cursor row is on
the display, for every transport and every fuel of at least 21 loop tests,
`print("This message is definitely too long")` returns after exactly 20 scroll windows
(35 - 16 + 1) of 16 characters, each made of the cursor command for column 0 of the
current row, the sixteen characters and a delay of 500 ms; the first window is
`This message is ` and the last one `initely too long`, the end of the text. -/
theorem scroll_example (fuel : Nat) (bus : Transport) (w : World)
    (hrows : w.lcd.rows = 2) (hcols : w.lcd.columns = 16) (hrow : w.lcd.currRowWrite < 2)
    (hfuel : 21 ≤ fuel) :
    ∃ w', print fuel bus (chars "This message is definitely too long") w = Except.ok w'
      ∧ wire w'.trace
          = wire w.trace
            ++ scrollWire w.lcd.hardware_address
                ((0x80 ||| (displayMemoryIndex.getD w.lcd.currRowWrite 0 + 0)) % 256)
                (chars "This message is definitely too long") 16 0 20
      ∧ ((chars "This message is definitely too long").drop 0).take 16
          = chars "This message is "
      ∧ ((chars "This message is definitely too long").drop 19).take 16
          = chars "initely too long"
      ∧ (chars "This message is definitely too long").length = 19 + 16 := by
  have hlen : (chars "This message is definitely too long").length = 35 := by decide
  obtain ⟨w', hw', hwire, _⟩ :=
    print_scroll fuel bus (chars "This message is definitely too long") w
      (by omega) (by omega) (by omega) (by omega) (by omega) (by omega)
  refine ⟨w', hw', ?_, by decide, by decide, by decide⟩
  rw [hwire, hcols, hlen]

/-- Witness of `scroll_example`: the 2x16 display with the cursor at row 0 and 21 loop
tests of fuel. -/
theorem scroll_example_witness :
    (display 2 16).lcd.rows = 2 ∧ (display 2 16).lcd.columns = 16
    ∧ (display 2 16).lcd.currRowWrite < 2
    ∧ ∃ w', print 21 allSent (chars "This message is definitely too long") (display 2 16)
          = Except.ok w'
        ∧ wire w'.trace
            = wire (display 2 16).trace
              ++ scrollWire 0x27 0x80 (chars "This message is definitely too long") 16 0 20 := by
  refine ⟨rfl, rfl, by decide, ?_⟩
  obtain ⟨w', hw', hwire, _⟩ :=
    scroll_example 21 allSent (display 2 16) rfl rfl (by decide) (le_refl _)
  exact ⟨w', hw', hwire⟩

/-! ## The addresses of the cursor positions -/

set_option maxRecDepth 100000 in
theorem or_0x80 (x : Nat) (hx : x < 128) : 0x80 ||| x = 0x80 + x := by
  revert x
  decide

theorem displayMemoryIndex_cases (row : Nat) (h : row < 4) :
    ∃ base, displayMemoryIndex.get? row = some base
      ∧ ((row = 0 ∧ base = 0x00) ∨ (row = 1 ∧ base = 0x40) ∨ (row = 2 ∧ base = 0x14)
          ∨ (row = 3 ∧ base = 0x54)) := by
  interval_cases row
  · exact ⟨0x00, rfl, Or.inl ⟨rfl, rfl⟩⟩
  · exact ⟨0x40, rfl, Or.inr (Or.inl ⟨rfl, rfl⟩)⟩
  · exact ⟨0x14, rfl, Or.inr (Or.inr (Or.inl ⟨rfl, rfl⟩))⟩
  · exact ⟨0x54, rfl, Or.inr (Or.inr (Or.inr ⟨rfl, rfl⟩))⟩

/-- C18: on every driver with at most 4 rows and at most 20 columns, for two accepted
positions `(row, column)` and `(row', column')`: the table has a base address for each
row; `base + column` is at most `0x7F`, so the command byte `0x80 | (base + column)`
that `moveCursor` frames is `0x80 + base + column` and loses nothing when narrowed to
eight bits; and equal command bytes come from equal positions. -/
theorem cursor_address_injective (bus : Transport) (w : World)
    (row column row' column' : Nat)
    (hrows : w.lcd.rows ≤ 4) (hcols : w.lcd.columns ≤ 20)
    (hr : row < w.lcd.rows) (hc : column < w.lcd.columns)
    (hr' : row' < w.lcd.rows) (hc' : column' < w.lcd.columns) :
    ∃ base base', displayMemoryIndex.get? row = some base
      ∧ displayMemoryIndex.get? row' = some base'
      ∧ base + column ≤ 0x7F
      ∧ (0x80 ||| (base + column)) % 256 = 0x80 + (base + column)
      ∧ moveCursor bus row column w
          = Except.ok (prepare_command bus (0x80 + (base + column))
              { w with lcd := { w.lcd with currRowWrite := row, currColumnWrite := column } })
      ∧ ((0x80 ||| (base + column)) % 256 = (0x80 ||| (base' + column')) % 256 →
          row = row' ∧ column = column') := by
  obtain ⟨base, hb, hcase⟩ := displayMemoryIndex_cases row (by omega)
  obtain ⟨base', hb', hcase'⟩ := displayMemoryIndex_cases row' (by omega)
  have h1 : 0x80 ||| (base + column) = 0x80 + (base + column) := or_0x80 _ (by omega)
  have h2 : 0x80 ||| (base' + column') = 0x80 + (base' + column') := or_0x80 _ (by omega)
  have e1 : (0x80 ||| (base + column)) % 256 = 0x80 + (base + column) := by
    rw [h1]
    omega
  have e2 : (0x80 ||| (base' + column')) % 256 = 0x80 + (base' + column') := by
    rw [h2]
    omega
  refine ⟨base, base', hb, hb', by omega, e1, ?_, ?_⟩
  · rw [moveCursor_accepted bus row column base w hr hc hb, e1]
  · intro heq
    rw [e1, e2] at heq
    omega

/-- Witness of `cursor_address_injective`: the last column of row 1 and the first column
of row 3 of a 4x20 display, whose addresses `0x53` and `0x54` are neighbours. -/
theorem cursor_address_injective_witness :
    (display 4 20).lcd.rows ≤ 4 ∧ (display 4 20).lcd.columns ≤ 20
    ∧ ∃ base base', displayMemoryIndex.get? 1 = some base
        ∧ displayMemoryIndex.get? 3 = some base'
        ∧ base + 19 ≤ 0x7F
        ∧ (0x80 ||| (base + 19)) % 256 = 0x80 + (base + 19)
        ∧ moveCursor allSent 1 19 (display 4 20)
            = Except.ok (prepare_command allSent (0x80 + (base + 19))
                { display 4 20 with lcd :=
                    { (display 4 20).lcd with currRowWrite := 1, currColumnWrite := 19 } })
        ∧ ((0x80 ||| (base + 19)) % 256 = (0x80 ||| (base' + 0)) % 256 →
            1 = 3 ∧ 19 = 0) :=
  ⟨by decide, by decide,
   cursor_address_injective allSent (display 4 20) 1 19 3 0 (by decide) (by decide)
     (by decide) (by decide) (by decide) (by decide)⟩

/-! ## The stored cursor stays on the display -/

theorem geometry_prepare_command (bus : Transport) (rows columns : Nat) (c : Nat) (w : World)
    (hw : cursorOnDisplay w ∧ w.lcd.rows = rows ∧ w.lcd.columns = columns) :
    cursorOnDisplay (prepare_command bus c w) ∧ (prepare_command bus c w).lcd.rows = rows
      ∧ (prepare_command bus c w).lcd.columns = columns := by
  obtain ⟨h1, h2, h3, h4⟩ := prepare_command_cursor bus c w
  unfold cursorOnDisplay at hw ⊢
  rw [h1, h2, h3, h4]
  exact hw

theorem geometry_prepare_character (bus : Transport) (rows columns : Nat) (c : Nat)
    (w : World) (hw : cursorOnDisplay w ∧ w.lcd.rows = rows ∧ w.lcd.columns = columns) :
    cursorOnDisplay (prepare_character bus c w) ∧ (prepare_character bus c w).lcd.rows = rows
      ∧ (prepare_character bus c w).lcd.columns = columns := by
  obtain ⟨h1, h2, h3, h4⟩ := prepare_character_cursor bus c w
  unfold cursorOnDisplay at hw ⊢
  rw [h1, h2, h3, h4]
  exact hw

theorem geometry_writeBuffer_set (rows columns : Nat) (p c : Nat) (w w' : World)
    (h : writeBuffer_set p c w = Except.ok w')
    (hw : cursorOnDisplay w ∧ w.lcd.rows = rows ∧ w.lcd.columns = columns) :
    cursorOnDisplay w' ∧ w'.lcd.rows = rows ∧ w'.lcd.columns = columns := by
  obtain ⟨h1, h2, h3, h4⟩ := writeBuffer_set_cursor p c w w' h
  unfold cursorOnDisplay at hw ⊢
  rw [h1, h2, h3, h4]
  exact hw

theorem geometry_moveCursor (bus : Transport) (rows columns : Nat) (row column : Nat)
    (w w' : World) (h : moveCursor bus row column w = Except.ok w')
    (hw : cursorOnDisplay w ∧ w.lcd.rows = rows ∧ w.lcd.columns = columns) :
    cursorOnDisplay w' ∧ w'.lcd.rows = rows ∧ w'.lcd.columns = columns := by
  unfold moveCursor at h
  split_ifs at h with hc
  · simp only [Except.ok.injEq] at h
    exact h ▸ hw
  · cases hb : displayMemoryIndex.get? row with
    | none => rw [hb] at h; simp at h
    | some base =>
      rw [hb] at h
      simp only [Except.ok.injEq] at h
      rw [← h]
      refine geometry_prepare_command bus rows columns _ _ ⟨?_, hw.2.1, hw.2.2⟩
      unfold cursorOnDisplay
      simp only
      omega

theorem geometry_print (fuel : Nat) (bus : Transport) (rows columns : Nat)
    (text : List Nat) (w w' : World) (h : print fuel bus text w = Except.ok w')
    (hw : cursorOnDisplay w ∧ w.lcd.rows = rows ∧ w.lcd.columns = columns) :
    cursorOnDisplay w' ∧ w'.lcd.rows = rows ∧ w'.lcd.columns = columns :=
  print_preserves fuel bus
    (fun v => cursorOnDisplay v ∧ v.lcd.rows = rows ∧ v.lcd.columns = columns)
    (fun c v hv => geometry_prepare_character bus rows columns c v hv)
    (fun p c a b hab ha => geometry_writeBuffer_set rows columns p c a b hab ha)
    (fun a b hab ha => geometry_moveCursor bus rows columns _ _ a b hab ha)
    (fun _ hv => hv)
    text w w' h hw

theorem geometry_call (bus : Transport) (rows columns : Nat) (c : Call) (w w' : World)
    (h : c.run bus w = Except.ok w')
    (hw : cursorOnDisplay w ∧ w.lcd.rows = rows ∧ w.lcd.columns = columns) :
    cursorOnDisplay w' ∧ w'.lcd.rows = rows ∧ w'.lcd.columns = columns := by
  cases c with
  | print fuel text => exact geometry_print fuel bus rows columns text w w' h hw
  | moveCursor row column => exact geometry_moveCursor bus rows columns row column w w' h hw
  | shiftDisplayLeft =>
    simp only [Call.run, Except.ok.injEq] at h
    exact h ▸ geometry_prepare_command bus rows columns _ w hw
  | shiftDisplayRight =>
    simp only [Call.run, Except.ok.injEq] at h
    exact h ▸ geometry_prepare_command bus rows columns _ w hw

theorem geometry_runCalls (bus : Transport) (rows columns : Nat) :
    ∀ (calls : List Call) (w w' : World), runCalls bus calls w = Except.ok w' →
      cursorOnDisplay w ∧ w.lcd.rows = rows ∧ w.lcd.columns = columns →
      cursorOnDisplay w' ∧ w'.lcd.rows = rows ∧ w'.lcd.columns = columns := by
  intro calls
  induction calls with
  | nil =>
    intro w w' h hw
    simp only [runCalls, Except.ok.injEq] at h
    exact h ▸ hw
  | cons c cs ih =>
    intro w w' h hw
    simp only [runCalls] at h
    cases hc : c.run bus w with
    | error e => rw [hc] at h; simp at h
    | ok v =>
      rw [hc] at h
      exact ih v w' h (geometry_call bus rows columns c w v hc hw)

theorem default_constructor_eq (bus : Transport) :
    DisplayControl.DisplayControl_default bus
      = DisplayControl.DisplayControl bus 4 5 0x27 2 16 := rfl

/-- C19: for every driver constructed with at least one row and one column (any pins and
address, any transport), the constructor returns a state with the cursor at row 0, column
0, and after every finite sequence of `print`, `moveCursor`, `shiftDisplayLeft` and
`shiftDisplayRight` calls with arbitrary arguments that returns, the geometry is the
constructed one, `currRowWrite < rows`, `currColumnWrite < columns`, and the rejection
test of `moveCursor(currRowWrite, 0)`, the move at the start of a scroll window, is
false. -/
theorem cursor_stays_on_display (bus bus' : Transport)
    (SDA SCL hardware_address display_rows display_columns : Nat) (calls : List Call)
    (hrows : 1 ≤ display_rows) (hcols : 1 ≤ display_columns) :
    ∃ w0, DisplayControl.DisplayControl bus SDA SCL hardware_address display_rows
          display_columns = Except.ok w0
      ∧ w0.lcd.currRowWrite = 0 ∧ w0.lcd.currColumnWrite = 0
      ∧ onReturn (fun w => w.lcd.rows = display_rows ∧ w.lcd.columns = display_columns
          ∧ w.lcd.currRowWrite < display_rows ∧ w.lcd.currColumnWrite < display_columns
          ∧ ¬ ((w.lcd.currRowWrite : Int) > (w.lcd.rows : Int) - 1
                ∨ (0 : Int) > (w.lcd.columns : Int) - 1))
          (runCalls bus' calls w0) := by
  obtain ⟨w0, hw0, t, ht⟩ := constructorBody_ok bus
    { lcd := { SDA := SDA, SCL := SCL, hardware_address := hardware_address,
               rows := display_rows, columns := display_columns } } rfl
  refine ⟨w0, hw0, by rw [ht], by rw [ht], onReturn_intro _ _ (fun w hw => ?_)⟩
  have h0 : cursorOnDisplay w0 ∧ w0.lcd.rows = display_rows
      ∧ w0.lcd.columns = display_columns := by
    unfold cursorOnDisplay
    rw [ht]
    exact ⟨⟨hrows, hcols⟩, rfl, rfl⟩
  obtain ⟨⟨h1, h2⟩, h3, h4⟩ := geometry_runCalls bus' display_rows display_columns calls w0 w hw h0
  rw [h3] at h1
  rw [h4] at h2
  refine ⟨h3, h4, h1, h2, ?_⟩
  rw [h3, h4]
  omega

set_option maxRecDepth 1000000 in
/-- Witness of `cursor_stays_on_display`: on the 2x16 display the calls
`moveCursor(1, 3)`, `print("Hi")`, `moveCursor(5, 5)`, `shiftDisplayLeft()` return with
the cursor at row 1, column 3. -/
theorem cursor_stays_on_display_witness :
    (1 ≤ 2 ∧ 1 ≤ 16)
    ∧ ((DisplayControl.DisplayControl allSent 4 5 0x27 2 16).bind
          (runCalls allSent [Call.moveCursor 1 3, Call.print 0 (chars "Hi"),
            Call.moveCursor 5 5, Call.shiftDisplayLeft])).map
          (fun w => (w.lcd.currRowWrite, w.lcd.currColumnWrite))
        = Except.ok (1, 3)
    ∧ ∃ w0, DisplayControl.DisplayControl allSent 4 5 0x27 2 16 = Except.ok w0
        ∧ w0.lcd.currRowWrite = 0 ∧ w0.lcd.currColumnWrite = 0
        ∧ onReturn (fun w => w.lcd.rows = 2 ∧ w.lcd.columns = 16
            ∧ w.lcd.currRowWrite < 2 ∧ w.lcd.currColumnWrite < 16
            ∧ ¬ ((w.lcd.currRowWrite : Int) > (w.lcd.rows : Int) - 1
                  ∨ (0 : Int) > (w.lcd.columns : Int) - 1))
            (runCalls allSent [Call.moveCursor 1 3, Call.print 0 (chars "Hi"),
              Call.moveCursor 5 5, Call.shiftDisplayLeft] w0) :=
  ⟨by decide, by decide,
   cursor_stays_on_display allSent allSent 4 5 0x27 2 16
     [Call.moveCursor 1 3, Call.print 0 (chars "Hi"), Call.moveCursor 5 5,
       Call.shiftDisplayLeft] (by decide) (by decide)⟩

/-! ## The run that never returns, pass by pass -/

theorem progress_step (bus : Transport) (text : List Nat) (displayWidth iter fuel i : Nat)
    (w : World) (hi : i ≤ iter) (hrow : w.lcd.currRowWrite < w.lcd.rows)
    (hcol : 0 < w.lcd.columns) (h4 : w.lcd.currRowWrite < 4)
    (hread : i + displayWidth ≤ text.length) :
    scrollProgress bus text displayWidth iter (fuel + 1) i w
      = scrollProgress bus text displayWidth iter fuel ((i + 1) % 256)
          (scrollWindow bus text displayWidth i w) := by
  simp only [scrollProgress]
  rw [if_pos hi, moveCursor_accepted bus _ 0 _ w hrow hcol (displayMemoryIndex_getD _ h4)]
  simp only
  rw [windowLoop_fold bus text i displayWidth 0 _ (by omega)]
  rfl

theorem scrollWindows_scrollWindow (bus : Transport) (text : List Nat)
    (displayWidth i : Nat) (w : World) :
    scrollWindows (wire (scrollWindow bus text displayWidth i w).trace)
      = scrollWindows (wire w.trace) + 1 := by
  rw [scrollWindow_wire, scrollWindows_append, scrollWindows_windowWire]

theorem progress_endless (bus : Transport) (text : List Nat) (displayWidth : Nat)
    (hread : 255 + displayWidth ≤ text.length) :
    ∀ (fuel i : Nat) (w : World), i ≤ 255 → w.lcd.currRowWrite < w.lcd.rows →
      0 < w.lcd.columns → w.lcd.currRowWrite < 4 →
      ∃ w', scrollProgress bus text displayWidth 255 fuel i w = Except.ok w'
        ∧ scrollWindows (wire w'.trace) = scrollWindows (wire w.trace) + fuel := by
  intro fuel
  induction fuel with
  | zero => intro i w _ _ _ _; exact ⟨w, rfl, rfl⟩
  | succ fuel ih =>
    intro i w hi hrow hcol h4
    rw [progress_step bus text displayWidth 255 fuel i w hi hrow hcol h4 (by omega)]
    obtain ⟨t, ht⟩ := scrollWindow_lcd bus text displayWidth i w
    obtain ⟨w', hw', hcount⟩ := ih ((i + 1) % 256) (scrollWindow bus text displayWidth i w)
      (by omega) (by rw [ht]; exact hrow) (by rw [ht]; exact hcol) (by rw [ht]; exact h4)
    refine ⟨w', hw', ?_⟩
    rw [hcount, scrollWindows_scrollWindow]
    omega

theorem printProgress_endless (fuel : Nat) (bus : Transport) (text : List Nat) (w : World)
    (hlen : text.length = w.lcd.columns + 255) (hrow : w.lcd.currRowWrite < w.lcd.rows)
    (hcol : 0 < w.lcd.columns) (h4 : w.lcd.currRowWrite < 4) :
    ∃ w', printProgress fuel bus text w = Except.ok w'
      ∧ scrollWindows (wire w'.trace) = scrollWindows (wire w.trace) + fuel := by
  unfold printProgress
  simp only
  rw [if_pos (by omega)]
  have hiter : (text.length - w.lcd.columns) % 256 = 255 := by
    rw [hlen]
    simp
  rw [hiter]
  exact progress_endless bus text _ (by omega) fuel 0 w (by omega) hrow hcol h4

theorem printProgress_endless_example (fuel : Nat) (bus : Transport) :
    (printProgress fuel bus (List.replicate 271 65) (display 2 16)).map
        (fun v => scrollWindows (wire v.trace))
      = Except.ok fuel := by
  obtain ⟨w', hw', hcount⟩ := printProgress_endless fuel bus (List.replicate 271 65)
    (display 2 16) (by rw [List.length_replicate]; rfl) (by decide) (by decide) (by decide)
  rw [hw']
  simp only [Except.map, hcount]
  have h0 : scrollWindows (wire (display 2 16).trace) = 0 := rfl
  rw [h0, Nat.zero_add]

/-! ## What the transport's results cannot change -/

/-- C10: for every starting state, every text, fuel, row and column and any two
transports, the two runs of `init_display`, `print`, `moveCursor`, `shiftDisplayLeft` and
`shiftDisplayRight` make the same observation: the same sequence of bus writes and delays,
the same stored cursor and the same write buffer (and, for `print` and `moveCursor`, the
same outcome, returned or faulted).  The same holds of `print` at every moment of a run
that has not returned: after every number `fuel` of tests of the scroll loop's condition
the two runs have made the same observation, where `printProgress` follows `print`
(it returns the world `print` returns, and the world reached where `print` is out of
fuel); on the text of 271 characters whose `print` never returns on the 2x16 display,
that world holds `fuel` scroll windows.  No result of a bus write changes what
follows. -/
theorem transport_results_do_not_steer (bus bus' : Transport) (w : World) (fuel : Nat)
    (text : List Nat) (row column : Nat) :
    observe (init_display bus w) = observe (init_display bus' w)
    ∧ observeOutcome (print fuel bus text w) = observeOutcome (print fuel bus' text w)
    ∧ observeOutcome (moveCursor bus row column w)
        = observeOutcome (moveCursor bus' row column w)
    ∧ observe (shiftDisplayLeft bus w) = observe (shiftDisplayLeft bus' w)
    ∧ observe (shiftDisplayRight bus w) = observe (shiftDisplayRight bus' w)
    ∧ observeOutcome (printProgress fuel bus text w)
        = observeOutcome (printProgress fuel bus' text w)
    ∧ tracks (print fuel bus text w) (printProgress fuel bus text w)
    ∧ tracks (print fuel bus' text w) (printProgress fuel bus' text w)
    ∧ (printProgress fuel bus (List.replicate 271 65) (display 2 16)).map
          (fun v => scrollWindows (wire v.trace))
        = Except.ok fuel :=
  ⟨observe_of_settled (init_display_sim bus bus' w w rfl),
   observeOutcome_of_settled (print_sim fuel bus bus' text w w rfl),
   observeOutcome_of_settled (moveCursor_sim bus bus' row column w w rfl),
   observe_of_settled (prepare_command_sim bus bus' _ w w rfl),
   observe_of_settled (prepare_command_sim bus bus' _ w w rfl),
   observeOutcome_of_settled (printProgress_sim fuel bus bus' text w w rfl),
   print_tracks fuel bus text w,
   print_tracks fuel bus' text w,
   printProgress_endless_example fuel bus⟩

/-! ## The control lines, returning or not -/

/-- C16: for every transport and every state, every byte that `init_display`,
`shiftDisplayLeft`, `shiftDisplayRight`, a returning `moveCursor` or a returning `print`
(whatever the text, the row and the column) writes to the bus has the backlight bit `0x08`
set, the read bit `0x02` clear, and low four bits `0x8`, `0xC` or `0xD`; and so has every
byte a `print` that has not returned has written after any number `fuel` of tests of the
scroll loop's condition, where `printProgress` follows `print` (it returns the world
`print` returns, and the world reached where `print` is out of fuel); on the text of 271
characters whose `print` never returns on the 2x16 display, that world holds `fuel`
scroll windows. -/
theorem control_lines_invariant (bus : Transport) (w : World) :
    wroteOnly controlLines w (init_display bus w)
    ∧ (∀ fuel text, onReturn (wroteOnly controlLines w) (print fuel bus text w))
    ∧ (∀ row column, onReturn (wroteOnly controlLines w) (moveCursor bus row column w))
    ∧ wroteOnly controlLines w (shiftDisplayLeft bus w)
    ∧ wroteOnly controlLines w (shiftDisplayRight bus w)
    ∧ (∀ fuel text, onReturn (wroteOnly controlLines w) (printProgress fuel bus text w))
    ∧ (∀ fuel text, tracks (print fuel bus text w) (printProgress fuel bus text w))
    ∧ (∀ fuel, (printProgress fuel bus (List.replicate 271 65) (display 2 16)).map
          (fun v => scrollWindows (wire v.trace))
        = Except.ok fuel) :=
  ⟨wroteOnly_init_display bus w w (wroteOnly_refl _ w),
   fun fuel text => onReturn_intro _ _
     (fun w' h => wroteOnly_print fuel bus text w w w' h (wroteOnly_refl _ w)),
   fun row column => onReturn_intro _ _
     (fun w' h => wroteOnly_moveCursor bus row column w w w' h (wroteOnly_refl _ w)),
   wroteOnly_prepare_command bus _ w w (wroteOnly_refl _ w),
   wroteOnly_prepare_command bus _ w w (wroteOnly_refl _ w),
   fun fuel text => onReturn_intro _ _
     (fun w' h => wroteOnly_printProgress fuel bus text w w w' h (wroteOnly_refl _ w)),
   fun fuel text => print_tracks fuel bus text w,
   fun fuel => printProgress_endless_example fuel bus⟩

end LCD
